import Mathlib

/-!
Shallow embedding of the MTG Commander deck analyzer / builder core
(role classification, category deficits, analyzer status logic, and the
deck-building autofill algorithm), together with theorems checking the
natural-language specification against this embedding.

String primitives (`toLowerCase`, `trim`, `includes`, `split`) are embedded
at the character-list level so that every definition is executable and
provable by ordinary induction.
-/

/-- JavaScript `String.prototype.includes`: `charsStart needle hay` is true
when `needle` is a prefix of `hay`. -/
def charsStart : List Char → List Char → Bool
  | [], _ => true
  | _ :: _, [] => false
  | a :: as, b :: bs => a == b && charsStart as bs

/-- The `charsInfix needle hay` is true when `needle` occurs contiguously in `hay`. -/
def charsInfix (needle : List Char) : List Char → Bool
  | [] => needle.isEmpty
  | b :: rest => charsStart needle (b :: rest) || charsInfix needle rest

/-- JS `hay.includes(needle)` over strings. -/
def containsStr (hay needle : String) : Bool :=
  charsInfix needle.toList hay.toList

/-- JS `String.prototype.toLowerCase` (ASCII case folding, as used by the code). -/
def lowerStr (s : String) : String :=
  String.mk (s.toList.map Char.toLower)

/-- Whitespace predicate used for trimming. -/
def isWS (c : Char) : Bool := c.isWhitespace

/-- JS `String.prototype.trim` over a character list. -/
def trimChars (cs : List Char) : List Char :=
  ((cs.dropWhile isWS).reverse.dropWhile isWS).reverse

/-- JS `String.prototype.trim`. -/
def trimStr (s : String) : String := String.mk (trimChars s.toList)

/-- Numeric value of a decimal digit string (JS `parseInt(_, 10)` on `\d+`). -/
def natOfDigits (cs : List Char) : Nat :=
  cs.foldl (fun n c => n * 10 + (c.toNat - '0'.toNat)) 0

/-- JS `a || d` for an optional string `a` (the empty string is falsy). -/
def orDefault (s : Option String) (d : String) : String :=
  match s with
  | none => d
  | some v => if v = "" then d else v

/-! ## Data model (`types.ts`, `scryfall.ts`) -/

/-- The `OracleCard` from `scryfall.ts` (the fields the core reads). -/
structure OracleCard where
  name : String
  type_line : Option String
  oracle_text : Option String
  color_identity : Option (List String)
  deriving Repr, DecidableEq

/-- The `CardRole` from `types.ts`. -/
inductive CardRole where
  | land
  | ramp
  | target_removal
  | board_wipe
  | card_draw
  | protection
  | tutor
  | wincon
  | other
  deriving Repr, DecidableEq

/-- One line of a parsed decklist (`ParsedCardEntry`). -/
structure ParsedCardEntry where
  rawLine : String
  quantity : Nat
  name : String
  deriving Repr, DecidableEq

/-- A parsed decklist (`ParsedDeck`). -/
structure ParsedDeck where
  commanderName : Option String
  cards : List ParsedCardEntry
  deriving Repr, DecidableEq

/-- The `TemplateCategoryConfig`: a template category with optional min/max bounds. -/
structure TemplateCategoryConfig where
  name : String
  min : Option Int
  max : Option Int
  deriving Repr, DecidableEq

/-- The `DeckTemplate` from `types.ts`. -/
structure DeckTemplate where
  id : String
  categories : List TemplateCategoryConfig
  deriving Repr, DecidableEq

/-- The `CategoryStatus` from `types.ts`. -/
inductive CategoryStatus where
  | below
  | within
  | above
  | unknown
  deriving Repr, DecidableEq

/-- The `CategorySummary` from `types.ts`. -/
structure CategorySummary where
  name : String
  count : Nat
  min : Option Int
  max : Option Int
  status : CategoryStatus
  deriving Repr, DecidableEq

/-- The `BracketRules` from `brackets.ts`. -/
structure BracketRules where
  id : String
  label : String
  maxGameChangers : Int
  allowMassLandDestruction : Bool
  allowInfiniteTwoCardCombosBeforeTurnSix : Bool
  maxExtraTurnCards : Option Int
  deriving Repr, DecidableEq

/-- The `BracketCardLists` from `bracketCards.ts`. -/
structure BracketCardLists where
  gameChangers : List String
  massLandDenial : List String
  extraTurns : List String
  deriving Repr, DecidableEq

/-! ## Role classification (`roles.ts`) -/

/-- The `normalizeCardName` from `bracketCards.ts`: `name.trim().toLowerCase()`. -/
def normalizeCardName (name : String) : String :=
  lowerStr (trimStr name)

/-- RAMP rule of `classifyCardRoles` (`roles.ts` lines 50-62). -/
def rampCondition (typeLine oracleText : String) : Bool :=
  (containsStr typeLine "artifact" && containsStr oracleText "add \x7b") ||
  containsStr oracleText "search your library for a land" ||
  containsStr oracleText "search your library for a basic land" ||
  (containsStr oracleText "search your library for up to" && containsStr oracleText "land") ||
  (containsStr typeLine "creature" && containsStr oracleText "\x7bt\x7d: add") ||
  containsStr oracleText "put a land card from your hand onto the battlefield" ||
  containsStr oracleText "you may put a land card"

/-- TARGET REMOVAL rule (`roles.ts` lines 68-83), outer test and the
board-wipe safety exclusion combined (the role is pushed only when both hold). -/
def targetRemovalCondition (oracleText : String) : Bool :=
  ((containsStr oracleText "destroy target" && !containsStr oracleText "destroy all") ||
   (containsStr oracleText "exile target" && !containsStr oracleText "exile all") ||
   (containsStr oracleText "damage to target" || containsStr oracleText "damage to any target") ||
   (containsStr oracleText "return target" && containsStr oracleText "to its owner") ||
   (containsStr oracleText "target" && containsStr oracleText "gets -")) &&
  (!containsStr oracleText "destroy all" && !containsStr oracleText "each creature")

/-- BOARD WIPE rule (`roles.ts` lines 86-96). -/
def boardWipeCondition (oracleText : String) : Bool :=
  containsStr oracleText "destroy all creatures" ||
  containsStr oracleText "destroy all nonland permanents" ||
  containsStr oracleText "destroy all permanents" ||
  containsStr oracleText "each creature gets -" ||
  (containsStr oracleText "each creature" && containsStr oracleText "destroy") ||
  containsStr oracleText "all creatures get -" ||
  containsStr oracleText "exile all creatures"

/-- CARD DRAW rule (`roles.ts` lines 99-108). -/
def cardDrawCondition (oracleText : String) : Bool :=
  containsStr oracleText "draw a card" ||
  containsStr oracleText "draw two cards" ||
  containsStr oracleText "draw three cards" ||
  containsStr oracleText "draw cards equal to" ||
  containsStr oracleText "draw that many cards" ||
  (containsStr oracleText "draw" && containsStr oracleText "card")

/-- PROTECTION rule (`roles.ts` lines 111-121). -/
def protectionCondition (oracleText : String) : Bool :=
  containsStr oracleText "hexproof" ||
  containsStr oracleText "indestructible" ||
  containsStr oracleText "protection from" ||
  containsStr oracleText "shroud" ||
  containsStr oracleText "ward" ||
  containsStr oracleText "prevent all damage" ||
  (containsStr oracleText "counter target" && containsStr oracleText "spell")

/-- TUTOR rule (`roles.ts` lines 124-133). -/
def tutorCondition (oracleText : String) : Bool :=
  containsStr oracleText "search your library for a card" ||
  (containsStr oracleText "search your library for an" && !containsStr oracleText "land") ||
  (containsStr oracleText "search your library" &&
   (containsStr oracleText "creature" || containsStr oracleText "artifact" ||
    containsStr oracleText "enchantment" || containsStr oracleText "instant" ||
    containsStr oracleText "sorcery"))

/-- WINCON rule (`roles.ts` lines 137-144). -/
def winconCondition (typeLine oracleText : String) : Bool :=
  containsStr oracleText "you win the game" ||
  (containsStr oracleText "deals damage to any target" && containsStr oracleText "50") ||
  containsStr oracleText "infinite" ||
  (containsStr typeLine "planeswalker" && containsStr oracleText "emblem")

/-- The role accumulation of `classifyCardRoles` for a non-land card
(`roles.ts` lines 48-144): each rule appends its role in source order. -/
def collectRoles (typeLine oracleText : String) : List CardRole :=
  let roles : List CardRole := []
  let roles := if rampCondition typeLine oracleText then roles ++ [CardRole.ramp] else roles
  let roles := if targetRemovalCondition oracleText then roles ++ [CardRole.target_removal] else roles
  let roles := if boardWipeCondition oracleText then roles ++ [CardRole.board_wipe] else roles
  let roles := if cardDrawCondition oracleText then roles ++ [CardRole.card_draw] else roles
  let roles := if protectionCondition oracleText then roles ++ [CardRole.protection] else roles
  let roles := if tutorCondition oracleText then roles ++ [CardRole.tutor] else roles
  let roles := if winconCondition typeLine oracleText then roles ++ [CardRole.wincon] else roles
  roles

/-- The `classifyCardRoles` from `roles.ts`: `null` (card not found) classifies as
`other`; a type line containing "land" returns `[land]` immediately; otherwise
the rules accumulate, with `[other]` as the fallback when nothing matched. -/
def classifyCardRoles (card : Option OracleCard) : List CardRole :=
  match card with
  | none => [CardRole.other]
  | some card =>
    let typeLine := lowerStr (card.type_line.getD "")
    let oracleText := lowerStr (card.oracle_text.getD "")
    if containsStr typeLine "land" then
      [CardRole.land]
    else
      let roles := collectRoles typeLine oracleText
      if roles.isEmpty then [CardRole.other] else roles

/-- Insertion into the `Set`-backed category accumulator of
`cardRolesToCategories` (add only if absent, preserving insertion order). -/
def addCategory (acc : List String) (s : String) : List String :=
  if acc.contains s then acc else acc ++ [s]

/-- The `cardRolesToCategories` from `roles.ts`: maps roles to deck-template
category names; only ramp / card_draw / target_removal / board_wipe map
(the last to the plural "board_wipes"). -/
def roleCategoriesStep (categories : List String) (role : CardRole) : List String :=
  let categories := if role = CardRole.ramp then addCategory categories "ramp" else categories
  let categories := if role = CardRole.card_draw then addCategory categories "card_draw" else categories
  let categories := if role = CardRole.target_removal then addCategory categories "target_removal" else categories
  let categories := if role = CardRole.board_wipe then addCategory categories "board_wipes" else categories
  categories

/-- The loop of `cardRolesToCategories`. -/
def cardRolesToCategories (roles : List CardRole) : List String :=
  roles.foldl roleCategoriesStep []

/-! ## Decklist parsing (`deckParser.ts`) -/

/-- JS `text.split(sep)` for a single-character separator, over char lists. -/
def splitOnChar (c : Char) : List Char → List (List Char)
  | [] => [[]]
  | a :: rest =>
    if a = c then [] :: splitOnChar c rest
    else (a :: (splitOnChar c rest).headD []) :: (splitOnChar c rest).tail

/-- One line of `parseDeckText`: the regex `^\s*(\d+)\s+(.+?)\s*$` applied to
the trimmed line; `quantity` is the (maximal) digit prefix, `name` the trimmed
remainder, which must start with whitespace and be non-empty. -/
def parseLine (line : String) : Option ParsedCardEntry :=
  let t := trimChars line.toList
  if t.isEmpty then none
  else
    let digits := t.takeWhile Char.isDigit
    let rest := t.dropWhile Char.isDigit
    if digits.isEmpty then none
    else
      match rest with
      | [] => none
      | r :: _ =>
        if isWS r then
          some { rawLine := line, quantity := natOfDigits digits, name := String.mk (trimChars rest) }
        else none

/-- The `parseDeckText` from `deckParser.ts`: split on newlines, parse each line,
silently dropping blank and non-matching lines; commander detection is not
implemented. -/
def parseDeckText (deckText : String) : ParsedDeck :=
  { commanderName := none
    cards := ((splitOnChar '\n' deckText.toList).map String.mk).filterMap parseLine }

/-! ## Category deficits (`categoryUtils.ts`) -/

/-- The `DeckAnalysis` from `types.ts` (the fields the core produces/reads). -/
structure DeckAnalysis where
  commanderName : Option String
  totalCards : Nat
  uniqueCards : Nat
  categories : List CategorySummary
  notes : List String
  bracketId : Option String
  bracketLabel : Option String
  bracketWarnings : List String
  deriving Repr, DecidableEq

/-- The `CategoryDeficit` from `categoryUtils.ts`. -/
structure CategoryDeficit where
  name : String
  current : Nat
  min : Option Int
  max : Option Int
  deficit : Int
  deriving Repr, DecidableEq

/-- The `computeCategoryDeficits` from `categoryUtils.ts`: one entry per requested
category name, in input order; `current` from the analysis (0 when absent),
`min`/`max` from the template, `deficit = max(0, (min ?? 0) - current)`. -/
def computeCategoryDeficits (analysis : DeckAnalysis) (template : DeckTemplate)
    (categoryNames : List String) : List CategoryDeficit :=
  categoryNames.map fun categoryName =>
    let categorySummary := analysis.categories.find? (fun c => c.name == categoryName)
    let currentCount : Nat := (categorySummary.map (fun c => c.count)).getD 0
    let templateConfig := template.categories.find? (fun c => c.name == categoryName)
    let mn := templateConfig.bind (fun c => c.min)
    let mx := templateConfig.bind (fun c => c.max)
    { name := categoryName
      current := currentCount
      min := mn
      max := mx
      deficit := max 0 ((mn.getD 0) - (currentCount : Int)) }

/-! ## External data environment (file system, card database, EDHREC)

The card database (`scryfall.ts`), the template / bracket data files
(`templates.ts`, `brackets.ts`, `bracketCards.ts`) and the EDHREC client
(`edhrec.ts`) read external data; they are modelled by an environment of
pure functions, with the control flow of the loaders (fallbacks, caches treated
as deterministic reads, error propagation) embedded from the source. -/

/-- An EDHREC card suggestion (`EdhrecCardSuggestion`; the builder reads only
the name). -/
structure EdhrecCardSuggestion where
  name : String
  deriving Repr, DecidableEq

/-- The `EdhrecContext` from `types.ts`. -/
structure EdhrecContext where
  sourcesUsed : List String
  suggestions : List EdhrecCardSuggestion
  deriving Repr, DecidableEq

/-- External collaborators of the core: the card database lookup, the
template files on disk (`none` = missing file / ENOENT), the parsed
`bracket-rules.json` (`none` = unreadable file), the per-bracket card-list
files, and the joined result of the two concurrent EDHREC fetches
(`Except` = the promise rejected). -/
structure Env where
  getCardByName : String → Option OracleCard
  templateData : String → Option DeckTemplate
  bracketRulesData : Option (String → Option BracketRules)
  bracketLists : String → Option BracketCardLists
  edhrecFetch : List String → Except String (List EdhrecCardSuggestion × List EdhrecCardSuggestion)

/-- The `loadDeckTemplate` from `templates.ts`: id defaults to "default" when
absent; a missing file for a non-default id falls back to the "default"
template; a missing "default" file is a propagated error. -/
def loadDeckTemplate (env : Env) (templateId : Option String) : Except String DeckTemplate :=
  let id := orDefault templateId "default"
  match env.templateData id with
  | some template => Except.ok template
  | none =>
    if id ≠ "default" then
      match env.templateData "default" with
      | some template => Except.ok template
      | none => Except.error ("Failed to load deck template \"default\": ENOENT\nMake sure data/deck-template-default.json exists.")
    else
      Except.error ("Failed to load deck template \"" ++ id ++ "\": ENOENT\nMake sure data/deck-template-" ++ id ++ ".json exists.")

/-- The `loadBracketRules` from `brackets.ts`: fails when `bracket-rules.json`
cannot be loaded or the bracket id is not present in it. -/
def loadBracketRules (env : Env) (bracketId : String) : Except String BracketRules :=
  match env.bracketRulesData with
  | none => Except.error "Failed to load bracket rules: bracket-rules.json could not be read."
  | some brackets =>
    match brackets bracketId with
    | some rules => Except.ok rules
    | none => Except.error ("Bracket \"" ++ bracketId ++ "\" not found in bracket-rules.json.")

/-- The `isGameChanger` from `bracketCards.ts`: case-insensitive, trimmed
membership in the game-changers list of the bracket; `false` when the card-list
files cannot be loaded. -/
def isGameChanger (env : Env) (name bracketId : String) : Bool :=
  match env.bracketLists bracketId with
  | none => false
  | some lists => lists.gameChangers.any (fun gc => normalizeCardName gc == normalizeCardName name)

/-- The `isMassLandDenial` from `bracketCards.ts`. -/
def isMassLandDenial (env : Env) (name bracketId : String) : Bool :=
  match env.bracketLists bracketId with
  | none => false
  | some lists => lists.massLandDenial.any (fun mld => normalizeCardName mld == normalizeCardName name)

/-- The `isExtraTurnCard` from `bracketCards.ts`. -/
def isExtraTurnCard (env : Env) (name bracketId : String) : Bool :=
  match env.bracketLists bracketId with
  | none => false
  | some lists => lists.extraTurns.any (fun et => normalizeCardName et == normalizeCardName name)

/-! ## Deck analyzer (`analyzer.ts`) -/

/-- Commander deck size (non-commander cards). -/
def COMMANDER_DECK_SIZE : Nat := 99

/-- The `calculateCategoryStatus` from `analyzer.ts`: `unknown` when neither bound
is configured; with both bounds, `below` / `above` / `within` in that order;
with one bound, only that comparison runs. -/
def calculateCategoryStatus (count : Nat) (min max : Option Int) : CategoryStatus :=
  match min, max with
  | none, none => CategoryStatus.unknown
  | some mn, some mx =>
    if (count : Int) < mn then CategoryStatus.below
    else if (count : Int) > mx then CategoryStatus.above
    else CategoryStatus.within
  | some mn, none =>
    if (count : Int) < mn then CategoryStatus.below else CategoryStatus.within
  | none, some mx =>
    if (count : Int) > mx then CategoryStatus.above else CategoryStatus.within

/-- The `roleToCategoryMap` of `analyzer.ts` with its `|| role` fallback
(`other` is the only role missing from the table, so it maps to "other"). -/
def roleToCategoryName : CardRole → String
  | CardRole.land => "lands"
  | CardRole.ramp => "ramp"
  | CardRole.target_removal => "target_removal"
  | CardRole.board_wipe => "board_wipes"
  | CardRole.card_draw => "card_draw"
  | CardRole.protection => "protection"
  | CardRole.tutor => "tutor"
  | CardRole.wincon => "wincon"
  | CardRole.other => "other"

/-- The category-count accumulation of `analyzeDeckBasic`: counts start at 0
for every template category; each parsed entry adds its quantity to the
category of each of its roles, provided that category exists in the template. -/
def tallyCategoryCounts (env : Env) (templateNames : List String)
    (cards : List ParsedCardEntry) : String → Nat :=
  cards.foldl
    (fun counts entry =>
      (classifyCardRoles (env.getCardByName entry.name)).foldl
        (fun counts role =>
          let categoryName := roleToCategoryName role
          if templateNames.contains categoryName then
            fun n => if n = categoryName then counts n + entry.quantity else counts n
          else counts)
        counts)
    (fun _ => 0)

/-- Rendering of an optional bound inside a note (JS interpolates `undefined`). -/
def showOptInt : Option Int → String
  | some n => toString n
  | none => "undefined"

/-- The deck-size note of `analyzeDeckBasic` (lines 120-132). -/
def deckSizeNote (totalCards : Nat) : String :=
  if totalCards < COMMANDER_DECK_SIZE then
    "Deck has fewer than " ++ toString COMMANDER_DECK_SIZE ++ " cards (excluding commander). Current: " ++ toString totalCards ++ " cards."
  else if totalCards > COMMANDER_DECK_SIZE then
    "Deck has more than " ++ toString COMMANDER_DECK_SIZE ++ " cards (excluding commander). Current: " ++ toString totalCards ++ " cards."
  else
    "Deck size is correct: " ++ toString totalCards ++ " cards (excluding commander)."

/-- The per-category range notes of `analyzeDeckBasic` (lines 203-218):
for the key categories only, a note when the status is below or above. -/
def categoryRangeNotes (categories : List CategorySummary) : List String :=
  let keyCategories := ["lands", "ramp", "target_removal", "board_wipes", "card_draw"]
  categories.foldl
    (fun notes cat =>
      if keyCategories.contains cat.name then
        if cat.status = CategoryStatus.below then
          notes ++ ["Category \x27" ++ cat.name ++ "\x27 is below recommended range: " ++ toString cat.count ++ " (recommended " ++ showOptInt cat.min ++ "-" ++ showOptInt cat.max ++ ")."]
        else if cat.status = CategoryStatus.above then
          notes ++ ["Category \x27" ++ cat.name ++ "\x27 is above recommended range: " ++ toString cat.count ++ " (recommended " ++ showOptInt cat.min ++ "-" ++ showOptInt cat.max ++ ")."]
        else notes
      else notes)
    []

/-- The bracket warnings of `analyzeDeckBasic` (lines 221-258), given the
loaded rules and the accumulated violation counters. -/
def bracketWarningsFor (rules : BracketRules) (gameChangerCount extraTurnCount : Nat)
    (hasMassLandDenial : Bool) : List String :=
  let warnings : List String := []
  let warnings :=
    if (gameChangerCount : Int) > rules.maxGameChangers then
      warnings ++ ["This deck uses " ++ toString gameChangerCount ++ " Game Changers, but Bracket " ++ rules.id ++ " allows a maximum of " ++ toString rules.maxGameChangers ++ "."]
    else if gameChangerCount > 0 then
      warnings ++ ["This deck uses " ++ toString gameChangerCount ++ " Game Changers (max allowed for Bracket " ++ rules.id ++ ": " ++ toString rules.maxGameChangers ++ ")."]
    else warnings
  let warnings :=
    if !rules.allowMassLandDestruction && hasMassLandDenial then
      warnings ++ ["This deck includes mass land destruction or denial effects, which are NOT allowed in Bracket " ++ rules.id ++ "."]
    else warnings
  let warnings :=
    match rules.maxExtraTurnCards with
    | some maxET =>
      if (extraTurnCount : Int) > maxET then
        warnings ++ ["This deck uses " ++ toString extraTurnCount ++ " extra-turn cards, which may exceed the intended Bracket " ++ rules.id ++ " limit of " ++ toString maxET ++ "."]
      else if extraTurnCount > 0 then
        warnings ++ ["This deck uses " ++ toString extraTurnCount ++ " extra-turn cards (soft limit for Bracket " ++ rules.id ++ ": " ++ toString maxET ++ ")."]
      else warnings
    | none =>
      if extraTurnCount > 0 then
        warnings ++ ["This deck uses " ++ toString extraTurnCount ++ " extra-turn cards. Consider whether this matches the intended Bracket " ++ rules.id ++ " experience."]
      else warnings
  warnings

/-- The `AnalyzeDeckInput` from `types.ts` (the fields the analyzer reads). -/
structure AnalyzeDeckInput where
  deckText : String
  templateId : Option String
  banlistId : Option String
  deriving Repr, DecidableEq

/-- The `AnalyzeDeckResult` from `types.ts`. -/
structure AnalyzeDeckResult where
  inputTemplateId : Option String
  inputBanlistId : Option String
  analysis : DeckAnalysis
  parsedDeck : ParsedDeck
  deriving Repr, DecidableEq

/-- The body of `analyzeDeckBasic` after the template has been loaded. -/
def analyzeCore (env : Env) (input : AnalyzeDeckInput) (template : DeckTemplate)
    (parsedDeck : ParsedDeck) : AnalyzeDeckResult :=
  let bracketRules : Option BracketRules :=
    match input.templateId with
    | none => none
    | some tid => if tid = "" then none else (loadBracketRules env tid).toOption
  let totalCards := (parsedDeck.cards.map (fun c => c.quantity)).sum
  let uniqueCards := parsedDeck.cards.length
  let commanderName := parsedDeck.commanderName
  let notes := [deckSizeNote totalCards]
  let templateNames := template.categories.map (fun c => c.name)
  let counts := tallyCategoryCounts env templateNames parsedDeck.cards
  let bracketId := orDefault input.templateId "default"
  let gameChangerCount :=
    match bracketRules with
    | none => 0
    | some _ => (parsedDeck.cards.map (fun e => if isGameChanger env e.name bracketId then e.quantity else 0)).sum
  let extraTurnCount :=
    match bracketRules with
    | none => 0
    | some _ => (parsedDeck.cards.map (fun e => if isExtraTurnCard env e.name bracketId then e.quantity else 0)).sum
  let hasMassLandDenial :=
    match bracketRules with
    | none => false
    | some _ => parsedDeck.cards.any (fun e => isMassLandDenial env e.name bracketId)
  let categories : List CategorySummary :=
    template.categories.map fun cat =>
      { name := cat.name
        count := counts cat.name
        min := cat.min
        max := cat.max
        status := calculateCategoryStatus (counts cat.name) cat.min cat.max }
  let notes := notes ++ categoryRangeNotes categories
  let bracketWarnings :=
    match bracketRules with
    | none => []
    | some rules => bracketWarningsFor rules gameChangerCount extraTurnCount hasMassLandDenial
  { inputTemplateId := input.templateId
    inputBanlistId := input.banlistId
    analysis :=
      { commanderName := commanderName
        totalCards := totalCards
        uniqueCards := uniqueCards
        categories := categories
        notes := notes
        bracketId := bracketRules.map (fun r => r.id)
        bracketLabel := bracketRules.map (fun r => r.label)
        bracketWarnings := bracketWarnings }
    parsedDeck := parsedDeck }

/-- The `analyzeDeckBasic` from `analyzer.ts`: loads the template for
`input.templateId` (propagating a load failure), attempts bracket rules for
the same id only when one was given (non-fatally), then analyzes. -/
def analyzeDeckBasic (env : Env) (input : AnalyzeDeckInput) (parsedDeck : ParsedDeck) :
    Except String AnalyzeDeckResult :=
  match loadDeckTemplate env input.templateId with
  | Except.error e => Except.error e
  | Except.ok template => Except.ok (analyzeCore env input template parsedDeck)

/-! ## Deck builder (`deckBuilder.ts`) -/

/-- The `COLOR_TO_BASIC_LAND` from `deckBuilder.ts` (record access yields
`undefined` for unmapped letters). -/
def mapColorToBasicLand : String → Option String
  | "W" => some "Plains"
  | "U" => some "Island"
  | "B" => some "Swamp"
  | "R" => some "Mountain"
  | "G" => some "Forest"
  | _ => none

/-- The `BuiltCardEntry` from `types.ts` (quantity is a JS number, kept as `Int`). -/
structure BuiltCardEntry where
  name : String
  quantity : Int
  roles : Option (List CardRole)
  deriving Repr, DecidableEq

/-- The `BuiltDeck` from `types.ts`. -/
structure BuiltDeck where
  commanderName : String
  cards : List BuiltCardEntry
  deriving Repr, DecidableEq

/-- The `BuildDeckInput` from `types.ts` (the fields the builder reads). -/
structure BuildDeckInput where
  commanderName : String
  templateId : Option String
  bracketId : Option String
  banlistId : Option String
  seedCards : Option (List String)
  useEdhrec : Option Bool
  useEdhrecAutofill : Option Bool
  deriving Repr, DecidableEq

/-- The `BuildDeckResult` from `types.ts`. -/
structure BuildDeckResult where
  input : BuildDeckInput
  templateId : String
  bracketId : String
  bracketLabel : Option String
  deck : BuiltDeck
  analysis : DeckAnalysis
  notes : List String
  edhrecContext : Option EdhrecContext
  deriving Repr, DecidableEq

/-- The recommended minimum land count of the template (`landsCategory?.min ?? 35`,
`deckBuilder.ts` line 109). -/
def landsMinOf (template : DeckTemplate) : Int :=
  ((template.categories.find? (fun cat => cat.name == "lands")).bind (fun c => c.min)).getD 35

/-- The recommended maximum land count of the template (`landsCategory?.max ?? 38`). -/
def landsMaxOf (template : DeckTemplate) : Int :=
  ((template.categories.find? (fun cat => cat.name == "lands")).bind (fun c => c.max)).getD 38

/-- The `Math.round((landsMin + landsMax) / 2)` (`deckBuilder.ts` line 111): for an
integer sum `s`, JS round-half-up of `s / 2` is `⌊(s + 1) / 2⌋`. -/
def targetLandCount (template : DeckTemplate) : Int :=
  Int.fdiv (landsMinOf template + landsMaxOf template + 1) 2

/-- The land-base entries of Step 6 (`deckBuilder.ts` lines 140-182):
a colorless (or unmappable) identity yields one Wastes entry at the full
target; otherwise the target is spread over the mapped basic lands by
`Math.floor` division, the remainder going one-per-color to the first
`target % n` colors in color-identity order. -/
def landEntriesFor (colorIdentity : List String) (landsToAdd : Int) : List BuiltCardEntry :=
  if colorIdentity.isEmpty then
    [{ name := "Wastes", quantity := landsToAdd, roles := some [CardRole.land] }]
  else
    let basicLandTypes := colorIdentity.filterMap mapColorToBasicLand
    if basicLandTypes.isEmpty then
      [{ name := "Wastes", quantity := landsToAdd, roles := some [CardRole.land] }]
    else
      let landsPerColor := Int.fdiv landsToAdd (basicLandTypes.length : Int)
      let remainder := Int.tmod landsToAdd (basicLandTypes.length : Int)
      basicLandTypes.enum.map fun p =>
        { name := p.2
          quantity := landsPerColor + (if (p.1 : Int) < remainder then 1 else 0)
          roles := some [CardRole.land] }

/-- The builder notes accompanying Step 6, with the same branch structure. -/
def landNotesFor (colorIdentity : List String) (landsToAdd : Int) : List String :=
  if colorIdentity.isEmpty then
    ["Colorless commander detected. Adding " ++ toString landsToAdd ++ " Wastes (or generic basics)."]
  else
    let basicLandTypes := colorIdentity.filterMap mapColorToBasicLand
    if basicLandTypes.isEmpty then
      ["Warning: Could not map color identity to basic lands. Defaulting to Wastes."]
    else
      ["Distributing " ++ toString landsToAdd ++ " basic lands among " ++ toString basicLandTypes.length ++ " colors."]

/-- The deck-size notes of Step 7 (`deckBuilder.ts` lines 185-204). -/
def deckSizeNotesInitial (totalCards : Int) : List String :=
  if totalCards < (COMMANDER_DECK_SIZE : Int) then
    ["⚠️  Skeleton deck: " ++ toString totalCards ++ "/" ++ toString COMMANDER_DECK_SIZE ++ " cards. Missing " ++ toString ((COMMANDER_DECK_SIZE : Int) - totalCards) ++ " nonland cards.",
     "This is a basic land shell. Add creatures, ramp, removal, and other nonlands to complete the deck."]
  else if totalCards > (COMMANDER_DECK_SIZE : Int) then
    ["⚠️  Deck exceeds " ++ toString COMMANDER_DECK_SIZE ++ " cards by " ++ toString (totalCards - (COMMANDER_DECK_SIZE : Int)) ++ ". Manual trimming required."]
  else
    ["✓ Deck size: " ++ toString totalCards ++ " cards (correct for Commander format, excluding commander)."]

/-- The post-autofill deck-size notes (`deckBuilder.ts` lines 437-452). -/
def deckSizeNotesUpdated (totalCards : Int) : List String :=
  if totalCards < (COMMANDER_DECK_SIZE : Int) then
    ["Deck has " ++ toString totalCards ++ "/" ++ toString COMMANDER_DECK_SIZE ++ " cards. " ++ toString ((COMMANDER_DECK_SIZE : Int) - totalCards) ++ " more cards needed."]
  else if totalCards > (COMMANDER_DECK_SIZE : Int) then
    ["⚠️  Deck exceeds " ++ toString COMMANDER_DECK_SIZE ++ " cards by " ++ toString (totalCards - (COMMANDER_DECK_SIZE : Int)) ++ ". Manual trimming required."]
  else
    ["✓ Deck size: " ++ toString totalCards ++ " cards (correct for Commander format)."]

/-- Total quantity of a built card list. -/
def builtTotal (cards : List BuiltCardEntry) : Int :=
  (cards.map (fun c => c.quantity)).sum

/-- Total quantity of a parsed deck. -/
def parsedTotal (deck : ParsedDeck) : Nat :=
  (deck.cards.map (fun c => c.quantity)).sum

/-- The per-copy flattening of Step 9 (`deckBuilder.ts` lines 214-216): each
entry becomes `quantity` copies of the line `"1 <name>"`. -/
def deckToPerCopyLines (cards : List BuiltCardEntry) : List String :=
  cards.flatMap (fun entry => List.replicate entry.quantity.toNat ("1 " ++ entry.name))

/-- JS `lines.join("\n")` over character lists: the separator goes between
consecutive lines. -/
def joinWithNewline : List (List Char) → List Char
  | [] => []
  | [l] => l
  | l :: l2 :: rest => l ++ '\n' :: joinWithNewline (l2 :: rest)

/-- JS `lines.join("\n")`. -/
def joinLines (lines : List String) : String :=
  String.mk (joinWithNewline (lines.map String.toList))

/-- The `sourcesUsed` bookkeeping of Step 9.5 (`deckBuilder.ts` lines 245-271). -/
def colorNameOf : String → Option String
  | "W" => some "white"
  | "U" => some "blue"
  | "B" => some "black"
  | "R" => some "red"
  | "G" => some "green"
  | _ => none

/-- The list of EDHREC source tags recorded for a color identity. -/
def edhrecSourcesUsed (colors : List String) : List String :=
  if colors.isEmpty then
    ["top/colorless.json", "lands/colorless.json"]
  else if colors.length = 1 then
    let colorName := colorNameOf (colors.headD "")
    (match colorName with
     | some n => ["top/" ++ n ++ ".json"]
     | none => []) ++
    ["lands/mono-" ++ (colorName.getD "colorless") ++ ".json"]
  else
    ["top/multicolor.json"] ++
    (colors.filterMap (fun c => (colorNameOf c).map (fun n => "top/" ++ n ++ ".json"))) ++
    ["lands/[color-combination].json"]

/-- The `bracketRules?.maxGameChangers ?? 3` (`deckBuilder.ts` line 312). -/
def maxGameChangersOf : Option BracketRules → Int
  | some rules => rules.maxGameChangers
  | none => 3

/-- The fixed autofill priority order (`deckBuilder.ts` line 323). -/
def priorityOrder : List String := ["ramp", "card_draw", "target_removal", "board_wipes"]

/-- State of the inner autofill scan over the suggestion list. -/
structure FillSt where
  built : List BuiltCardEntry
  seen : List String
  gc : Int
  remaining : Int
  added : Nat
  deriving Repr

/-- The inner autofill loop for one category (`deckBuilder.ts` lines 335-396):
scan the suggestions in order; stop when the deficit is filled; skip names
already in the deck (case-insensitive), lookup failures, cards outside the
color identity of the commander, Game Changers once the running count has reached
the maximum, mass-land-denial cards and extra-turn cards; a surviving card
whose mapped categories include the target category is appended at quantity 1,
marked seen and counted (also toward the Game-Changer count if applicable). -/
def fillCategoryGo (env : Env) (bracketId : String) (colorIdentity : List String)
    (maxGameChangers : Int) (categoryName : String) :
    List EdhrecCardSuggestion → FillSt → FillSt
  | [], st => st
  | suggestion :: rest, st =>
    if st.remaining ≤ 0 then st
    else if st.seen.contains (lowerStr suggestion.name) then
      fillCategoryGo env bracketId colorIdentity maxGameChangers categoryName rest st
    else
      match env.getCardByName suggestion.name with
      | none => fillCategoryGo env bracketId colorIdentity maxGameChangers categoryName rest st
      | some card =>
        if !((card.color_identity.getD []).all (fun c => colorIdentity.contains c)) then
          fillCategoryGo env bracketId colorIdentity maxGameChangers categoryName rest st
        else if isGameChanger env suggestion.name bracketId = true ∧ maxGameChangers ≤ st.gc then
          fillCategoryGo env bracketId colorIdentity maxGameChangers categoryName rest st
        else if isMassLandDenial env suggestion.name bracketId then
          fillCategoryGo env bracketId colorIdentity maxGameChangers categoryName rest st
        else if isExtraTurnCard env suggestion.name bracketId then
          fillCategoryGo env bracketId colorIdentity maxGameChangers categoryName rest st
        else
          let roles := classifyCardRoles (some card)
          let categories := cardRolesToCategories roles
          if categories.contains categoryName then
            fillCategoryGo env bracketId colorIdentity maxGameChangers categoryName rest
              { built := st.built ++ [{ name := card.name, quantity := 1, roles := some roles }]
                seen := st.seen ++ [lowerStr card.name]
                gc := if isGameChanger env card.name bracketId then st.gc + 1 else st.gc
                remaining := st.remaining - 1
                added := st.added + 1 }
          else
            fillCategoryGo env bracketId colorIdentity maxGameChangers categoryName rest st

/-- State of the outer autofill loop over the priority categories. -/
structure AutofillState where
  builtCards : List BuiltCardEntry
  cardsInDeck : List String
  gameChangerCount : Int
  afNotes : List String
  afCounts : List (String × Nat)
  deriving Repr

/-- One iteration of the outer autofill loop (`deckBuilder.ts` lines 325-403):
look up the deficit of the category, skip when absent or non-positive, otherwise
scan the suggestion list and record the notes and fill count. -/
def processCategory (env : Env) (bracketId : String) (colorIdentity : List String)
    (maxGameChangers : Int) (suggestions : List EdhrecCardSuggestion)
    (deficits : List CategoryDeficit) (st : AutofillState) (categoryName : String) :
    AutofillState :=
  match deficits.find? (fun d => d.name == categoryName) with
  | none => st
  | some deficit =>
    if deficit.deficit ≤ 0 then st
    else
      let notes := st.afNotes ++ ["  → " ++ categoryName ++ ": deficit of " ++ toString deficit.deficit]
      let final := fillCategoryGo env bracketId colorIdentity maxGameChangers categoryName
        suggestions
        { built := st.builtCards, seen := st.cardsInDeck, gc := st.gameChangerCount
          remaining := deficit.deficit, added := 0 }
      let notes := notes ++
        [if final.remaining > 0 then
          "    ⚠️  Could not fill all " ++ categoryName ++ " slots (" ++ toString final.remaining ++ " remaining)"
         else
          "    ✓ Filled " ++ toString final.added ++ " " ++ categoryName ++ " slots"]
      { builtCards := final.built
        cardsInDeck := final.seen
        gameChangerCount := final.gc
        afNotes := notes
        afCounts := st.afCounts ++ [(categoryName, final.added)] }

/-- The full autofill pass of Step 9.6: process the four priority categories
in order, starting from the current deck, its lowercased name set and the
seeded Game-Changer count. -/
def runAutofill (env : Env) (bracketId : String) (colorIdentity : List String)
    (maxGameChangers : Int) (suggestions : List EdhrecCardSuggestion)
    (deficits : List CategoryDeficit) (builtCards : List BuiltCardEntry)
    (cardsInDeck : List String) (gameChangerCount : Int) : AutofillState :=
  priorityOrder.foldl
    (processCategory env bracketId colorIdentity maxGameChangers suggestions deficits)
    { builtCards := builtCards, cardsInDeck := cardsInDeck
      gameChangerCount := gameChangerCount, afNotes := [], afCounts := [] }

/-- Count recorded for a category in the autofill summary. -/
def afCountOf (counts : List (String × Nat)) (name : String) : Nat :=
  ((counts.find? (fun p => p.1 == name)).map (fun p => p.2)).getD 0

/-- The `buildDeckFromCommander` from `deckBuilder.ts`. Step 1 resolves the
commander (fatal on failure); Step 2 resolves template/bracket ids (default
"bracket3") and loads the template (a load failure propagates) and the
bracket rules (a failure only appends a warning note); Steps 3-7 compute the
land target, seed entries, the land base and the deck-size notes; Step 8
re-parses the flattened deck and analyzes it; Step 9.5 optionally fetches
EDHREC suggestions (a failure only appends a note); Step 9.6 optionally
autofills category deficits and re-analyzes; Step 10 assembles the result. -/
def buildDeckFromCommander (env : Env) (input : BuildDeckInput) :
    Except String BuildDeckResult :=
  match env.getCardByName input.commanderName with
  | none =>
    Except.error ("Commander \"" ++ input.commanderName ++ "\" could not be resolved from Scryfall data.\nPlease check the card name spelling and ensure oracle-cards.json is loaded.")
  | some commanderCard =>
    let colorIdentity := commanderCard.color_identity.getD []
    let notes1 := ["Commander: " ++ commanderCard.name ++ " (Color Identity: " ++ (if colorIdentity.length > 0 then String.join colorIdentity else "Colorless") ++ ")"]
    let templateId := orDefault input.templateId "bracket3"
    let bracketId := orDefault input.bracketId "bracket3"
    match loadDeckTemplate env (some templateId) with
    | Except.error e => Except.error e
    | Except.ok template =>
      let bracketRules := (loadBracketRules env bracketId).toOption
      let bracketLabel := bracketRules.map (fun r => r.label)
      let notes2 := notes1 ++
        (match loadBracketRules env bracketId with
         | Except.ok _ => []
         | Except.error _ => ["Warning: Could not load bracket rules for \"" ++ bracketId ++ "\"."])
      let landsMin := landsMinOf template
      let landsMax := landsMaxOf template
      let targetLands := targetLandCount template
      let notes3 := notes2 ++ ["Template \"" ++ templateId ++ "\" recommends " ++ toString landsMin ++ "-" ++ toString landsMax ++ " lands. Target: " ++ toString targetLands ++ "."]
      let seeds := input.seedCards.getD []
      let notes4 := notes3 ++ (if seeds.length > 0 then ["Including " ++ toString seeds.length ++ " seed cards."] else [])
      let seedEntries : List BuiltCardEntry := seeds.map fun seedCardName =>
        { name := seedCardName
          quantity := 1
          roles := (env.getCardByName seedCardName).map (fun c => classifyCardRoles (some c)) }
      let builtCards := seedEntries ++ landEntriesFor colorIdentity targetLands
      let notes5 := notes4 ++ landNotesFor colorIdentity targetLands
      let totalCards := builtTotal builtCards
      let notes6 := notes5 ++ deckSizeNotesInitial totalCards
      let deckText := joinLines (deckToPerCopyLines builtCards)
      let analyzeInput : AnalyzeDeckInput :=
        { deckText := deckText, templateId := some templateId, banlistId := input.banlistId }
      let parsed := parseDeckText deckText
      match analyzeDeckBasic env analyzeInput parsed with
      | Except.error e => Except.error e
      | Except.ok analyzeResult =>
        let shouldFetchEdhrec := input.useEdhrec.getD false || input.useEdhrecAutofill.getD false
        let fetchOutcome :=
          if shouldFetchEdhrec then some (env.edhrecFetch colorIdentity) else none
        let edhrecContext : Option EdhrecContext :=
          match fetchOutcome with
          | none => none
          | some (Except.error _) => none
          | some (Except.ok (topCards, topLands)) =>
            some { sourcesUsed := edhrecSourcesUsed colorIdentity
                   suggestions := topCards ++ topLands }
        let notes7 := notes6 ++
          (match fetchOutcome with
           | none => []
           | some (Except.error msg) =>
             ["Fetching EDHREC suggestions...",
              "⚠️  EDHREC: Could not fetch suggestions. " ++ msg]
           | some (Except.ok (topCards, topLands)) =>
             ["Fetching EDHREC suggestions...",
              "✓ EDHREC: Fetched " ++ toString topCards.length ++ " top cards and " ++ toString topLands.length ++ " lands (" ++ toString (topCards.length + topLands.length) ++ " total suggestions)."])
        match edhrecContext with
        | some ctx =>
          if input.useEdhrecAutofill.getD false && decide (ctx.suggestions.length > 0) then
            let deficits := computeCategoryDeficits analyzeResult.analysis template priorityOrder
            let gameChangerCount :=
              builtTotal (builtCards.filter (fun card => isGameChanger env card.name bracketId))
            let maxGameChangers := maxGameChangersOf bracketRules
            let afState := runAutofill env bracketId colorIdentity maxGameChangers
              ctx.suggestions deficits builtCards
              (builtCards.map (fun card => lowerStr card.name)) gameChangerCount
            let totalAutofilled := (afState.afCounts.map (fun p => p.2)).sum
            let notes8 := notes7 ++
              ["---", "EDHREC Autofill enabled. Attempting to fill category deficits..."] ++
              afState.afNotes ++
              ["✓ EDHREC Autofill complete: added " ++ toString totalAutofilled ++ " cards (" ++ toString (afCountOf afState.afCounts "ramp") ++ " ramp, " ++ toString (afCountOf afState.afCounts "card_draw") ++ " draw, " ++ toString (afCountOf afState.afCounts "target_removal") ++ " removal, " ++ toString (afCountOf afState.afCounts "board_wipes") ++ " wipes)",
               "---"]
            let updatedDeckText := joinLines (deckToPerCopyLines afState.builtCards)
            let updatedInput : AnalyzeDeckInput :=
              { deckText := updatedDeckText, templateId := some templateId, banlistId := input.banlistId }
            let updatedParsed := parseDeckText updatedDeckText
            match analyzeDeckBasic env updatedInput updatedParsed with
            | Except.error e => Except.error e
            | Except.ok updatedAnalyzeResult =>
              let notes9 := notes8 ++ deckSizeNotesUpdated (builtTotal afState.builtCards)
              Except.ok
                { input := input
                  templateId := templateId
                  bracketId := bracketId
                  bracketLabel := bracketLabel
                  deck := { commanderName := commanderCard.name, cards := afState.builtCards }
                  analysis := updatedAnalyzeResult.analysis
                  notes := notes9 ++
                    ["---", "Deck Builder Info:",
                     "- This is a skeleton Bracket 3 deck generated from commander \"" ++ commanderCard.name ++ "\".",
                     "- Nonland categories are not fully auto-filled yet; manual tuning required.",
                     "- Use EDHREC or other resources to complete the deck with appropriate cards.",
                     "---", "Analysis Notes:"] ++ updatedAnalyzeResult.analysis.notes
                  edhrecContext := edhrecContext }
          else
            Except.ok
              { input := input
                templateId := templateId
                bracketId := bracketId
                bracketLabel := bracketLabel
                deck := { commanderName := commanderCard.name, cards := builtCards }
                analysis := analyzeResult.analysis
                notes := notes7 ++
                  ["---", "Deck Builder Info:",
                   "- This is a skeleton Bracket 3 deck generated from commander \"" ++ commanderCard.name ++ "\".",
                   "- Nonland categories are not fully auto-filled yet; manual tuning required.",
                   "- Use EDHREC or other resources to complete the deck with appropriate cards.",
                   "---", "Analysis Notes:"] ++ analyzeResult.analysis.notes
                edhrecContext := edhrecContext }
        | none =>
          Except.ok
            { input := input
              templateId := templateId
              bracketId := bracketId
              bracketLabel := bracketLabel
              deck := { commanderName := commanderCard.name, cards := builtCards }
              analysis := analyzeResult.analysis
              notes := notes7 ++
                ["---", "Deck Builder Info:",
                 "- This is a skeleton Bracket 3 deck generated from commander \"" ++ commanderCard.name ++ "\".",
                 "- Nonland categories are not fully auto-filled yet; manual tuning required.",
                 "- Use EDHREC or other resources to complete the deck with appropriate cards.",
                 "---", "Analysis Notes:"] ++ analyzeResult.analysis.notes
              edhrecContext := edhrecContext }

/-! ## Sample data used by witnesses and counterexamples -/

/-- A basic Island as returned by the card database. -/
def islandCard : OracleCard :=
  { name := "Island", type_line := some "Basic Land — Island",
    oracle_text := none, color_identity := some ["U"] }

/-- A Sol-Ring-like mana rock. -/
def solRingCard : OracleCard :=
  { name := "Sol Ring", type_line := some "Artifact",
    oracle_text := some "\x7bT\x7d: Add \x7bC\x7d\x7bC\x7d.", color_identity := some [] }

/-- A card with no type line and no oracle text (matches no rule). -/
def blankCard : OracleCard :=
  { name := "Blank", type_line := none, oracle_text := none, color_identity := none }

/-! ## C1: lands classify as exactly the singleton role set -/

/-- C1: for every card whose (lower-cased) type line contains the substring
"land", `classifyCardRoles` returns exactly `[land]`; the early return means
no other rule is evaluated and no other role can accompany it. -/
theorem classifyCardRoles_land_singleton (card : OracleCard)
    (h : containsStr (lowerStr (card.type_line.getD "")) "land" = true) :
    classifyCardRoles (some card) = [CardRole.land] := by
  unfold classifyCardRoles
  simp [h]

/-- Witness for C1 at a concrete basic land. -/
theorem classifyCardRoles_land_singleton_witness :
    containsStr (lowerStr (islandCard.type_line.getD "")) "land" = true ∧
    classifyCardRoles (some islandCard) = [CardRole.land] :=
  ⟨by decide, classifyCardRoles_land_singleton islandCard (by decide)⟩

/-! ## C7: classification is total and never returns an empty role set -/

/-- C7: `classifyCardRoles` is total with a non-empty result: the not-found
input returns exactly `[other]`, every input yields a non-empty role list,
and a resolved card matching no classification rule (type line not containing
"land" and all seven role conditions false) returns exactly `[other]`. -/
theorem classifyCardRoles_total_nonempty :
    classifyCardRoles none = [CardRole.other] ∧
    (∀ card : Option OracleCard, classifyCardRoles card ≠ []) ∧
    (∀ card : OracleCard,
      containsStr (lowerStr (card.type_line.getD "")) "land" = false →
      rampCondition (lowerStr (card.type_line.getD "")) (lowerStr (card.oracle_text.getD "")) = false →
      targetRemovalCondition (lowerStr (card.oracle_text.getD "")) = false →
      boardWipeCondition (lowerStr (card.oracle_text.getD "")) = false →
      cardDrawCondition (lowerStr (card.oracle_text.getD "")) = false →
      protectionCondition (lowerStr (card.oracle_text.getD "")) = false →
      tutorCondition (lowerStr (card.oracle_text.getD "")) = false →
      winconCondition (lowerStr (card.type_line.getD "")) (lowerStr (card.oracle_text.getD "")) = false →
      classifyCardRoles (some card) = [CardRole.other]) := by
  refine ⟨rfl, ?_, ?_⟩
  · intro card
    cases card with
    | none => simp [classifyCardRoles]
    | some c =>
      simp only [classifyCardRoles]
      split
      · simp
      · split
        · simp
        · rename_i hne
          simpa [List.isEmpty_iff] using hne
  · intro card hland h1 h2 h3 h4 h5 h6 h7
    unfold classifyCardRoles
    simp only [hland]
    have hcollect :
        collectRoles (lowerStr (card.type_line.getD ""))
          (lowerStr (card.oracle_text.getD "")) = [] := by
      unfold collectRoles
      simp [h1, h2, h3, h4, h5, h6, h7]
    simp [hcollect]

/-- Witness for C7 at a concrete rule-free card. -/
theorem classifyCardRoles_total_nonempty_witness :
    classifyCardRoles (some blankCard) = [CardRole.other] :=
  classifyCardRoles_total_nonempty.2.2 blankCard (by decide) (by decide) (by decide)
    (by decide) (by decide) (by decide) (by decide) (by decide)

/-! ## C10: the builder-side role→category mapping -/

/-- Membership after a `Set.add`-style insertion. -/
theorem mem_addCategory {acc : List String} {s c : String}
    (h : c ∈ addCategory acc s) : c ∈ acc ∨ c = s := by
  unfold addCategory at h
  split at h
  · exact Or.inl h
  · rcases List.mem_append.mp h with h' | h'
    · exact Or.inl h'
    · exact Or.inr (List.mem_singleton.mp h')

/-- Insertion preserves `Nodup`. -/
theorem nodup_addCategory {acc : List String} {s : String}
    (h : acc.Nodup) : (addCategory acc s).Nodup := by
  unfold addCategory
  split
  · exact h
  · rename_i hnc
    simp at hnc
    simp [List.nodup_append, h, hnc]

/-- The four category names the builder-side mapping can produce. -/
def autofillCategories : List String := ["ramp", "card_draw", "target_removal", "board_wipes"]

/-- One fold step keeps the accumulator duplicate-free and inside the four
autofill categories. -/
theorem roleCategoriesStep_invariant (acc : List String) (role : CardRole)
    (hn : acc.Nodup) (hs : ∀ c ∈ acc, c ∈ autofillCategories) :
    (roleCategoriesStep acc role).Nodup ∧
      (∀ c ∈ roleCategoriesStep acc role, c ∈ autofillCategories) := by
  have hadd : ∀ s, s ∈ autofillCategories →
      (addCategory acc s).Nodup ∧ ∀ c ∈ addCategory acc s, c ∈ autofillCategories := by
    intro s hps
    exact ⟨nodup_addCategory hn,
      fun c hc => (mem_addCategory hc).elim (hs c) (fun h => h ▸ hps)⟩
  cases role <;>
    first
      | exact ⟨hn, hs⟩
      | exact hadd _ (by simp [autofillCategories])

/-- Inert roles leave the accumulator unchanged. -/
theorem roleCategoriesStep_inert (acc : List String) (role : CardRole)
    (h : role ∈ [CardRole.land, CardRole.protection, CardRole.tutor, CardRole.wincon, CardRole.other]) :
    roleCategoriesStep acc role = acc := by
  fin_cases h <;> rfl

/-- The fold invariant for `cardRolesToCategories`. -/
theorem cardRolesToCategories_foldl_invariant (roles : List CardRole) :
    ∀ acc : List String, acc.Nodup → (∀ c ∈ acc, c ∈ autofillCategories) →
      (roles.foldl roleCategoriesStep acc).Nodup ∧
        (∀ c ∈ roles.foldl roleCategoriesStep acc, c ∈ autofillCategories) := by
  induction roles with
  | nil => intro acc hn hs; exact ⟨hn, hs⟩
  | cons role rest ih =>
    intro acc hn hs
    have h := roleCategoriesStep_invariant acc role hn hs
    exact ih (roleCategoriesStep acc role) h.1 h.2

/-- The fold ignores a list of inert roles entirely. -/
theorem cardRolesToCategories_foldl_inert (roles : List CardRole)
    (h : ∀ role ∈ roles, role ∈ [CardRole.land, CardRole.protection, CardRole.tutor, CardRole.wincon, CardRole.other]) :
    ∀ acc : List String, roles.foldl roleCategoriesStep acc = acc := by
  induction roles with
  | nil => intro acc; rfl
  | cons role rest ih =>
    intro acc
    rw [List.foldl_cons, roleCategoriesStep_inert acc role (h role (by simp))]
    exact ih (fun r hr => h r (by simp [hr])) acc

/-- C10: `cardRolesToCategories` (the mapping used by the autofill of the builder)
returns a duplicate-free list contained in
`["ramp", "card_draw", "target_removal", "board_wipes"]`, and the roles land,
protection, tutor, wincon and other contribute no category (a role list made
only of those yields `[]`). -/
theorem cardRolesToCategories_spec (roles : List CardRole) :
    (cardRolesToCategories roles).Nodup ∧
    (∀ c ∈ cardRolesToCategories roles, c ∈ autofillCategories) ∧
    ((∀ role ∈ roles,
        role ∈ [CardRole.land, CardRole.protection, CardRole.tutor, CardRole.wincon, CardRole.other]) →
      cardRolesToCategories roles = []) := by
  have h := cardRolesToCategories_foldl_invariant roles [] (by simp) (by simp)
  exact ⟨h.1, h.2, fun hin => cardRolesToCategories_foldl_inert roles hin []⟩

/-- Witness for C10 at a concrete role list. -/
theorem cardRolesToCategories_spec_witness :
    cardRolesToCategories [CardRole.land, CardRole.other] = [] :=
  (cardRolesToCategories_spec [CardRole.land, CardRole.other]).2.2 (by decide)

/-! ## C6: category status derivation -/

/-- C6: the category status of the analyzer is `unknown` exactly when neither bound
is configured; `below` when the minimum is set and the count is under it;
`above` when the maximum is set, the count exceeds it, and the `below` branch
did not fire; `within` otherwise (with the comparison against a missing bound
skipped). -/
theorem calculateCategoryStatus_spec (count : Nat) (mn mx : Option Int) :
    (calculateCategoryStatus count mn mx = CategoryStatus.unknown ↔ (mn = none ∧ mx = none)) ∧
    (∀ m, mn = some m → (count : Int) < m →
      calculateCategoryStatus count mn mx = CategoryStatus.below) ∧
    (∀ M, mx = some M → (count : Int) > M → (∀ m, mn = some m → ¬ (count : Int) < m) →
      calculateCategoryStatus count mn mx = CategoryStatus.above) ∧
    ((mn ≠ none ∨ mx ≠ none) →
      (∀ m, mn = some m → ¬ (count : Int) < m) →
      (∀ M, mx = some M → ¬ (count : Int) > M) →
      calculateCategoryStatus count mn mx = CategoryStatus.within) := by
  cases mn with
  | none =>
    cases mx with
    | none => simp [calculateCategoryStatus]
    | some M =>
      refine ⟨?_, by simp, ?_, ?_⟩
      · simp only [calculateCategoryStatus]
        constructor
        · intro h; split_ifs at h
        · rintro ⟨-, ⟨⟩⟩
      · intro M' hM' hgt _hge
        cases hM'
        simp only [calculateCategoryStatus]
        rw [if_pos hgt]
      · intro _hne _hge hle
        have h2 := hle M rfl
        simp only [calculateCategoryStatus]
        rw [if_neg h2]
  | some m =>
    cases mx with
    | none =>
      refine ⟨?_, ?_, by simp, ?_⟩
      · simp only [calculateCategoryStatus]
        constructor
        · intro h; split_ifs at h
        · rintro ⟨⟨⟩, -⟩
      · intro m' hm' hlt
        cases hm'
        simp only [calculateCategoryStatus]
        rw [if_pos hlt]
      · intro _hne hge _hle
        have h1 := hge m rfl
        simp only [calculateCategoryStatus]
        rw [if_neg h1]
    | some M =>
      refine ⟨?_, ?_, ?_, ?_⟩
      · simp only [calculateCategoryStatus]
        constructor
        · intro h; split_ifs at h
        · rintro ⟨⟨⟩, -⟩
      · intro m' hm' hlt
        cases hm'
        simp only [calculateCategoryStatus]
        rw [if_pos hlt]
      · intro M' hM' hgt hge
        cases hM'
        have h1 := hge m rfl
        simp only [calculateCategoryStatus]
        rw [if_neg h1, if_pos hgt]
      · intro _hne hge hle
        have h1 := hge m rfl
        have h2 := hle M rfl
        simp only [calculateCategoryStatus]
        rw [if_neg h1, if_neg h2]

/-- Witness for C6 at concrete bounds. -/
theorem calculateCategoryStatus_spec_witness :
    calculateCategoryStatus 3 (some 5) (some 10) = CategoryStatus.below :=
  (calculateCategoryStatus_spec 3 (some 5) (some 10)).2.1 5 rfl (by decide)

/-! ## C3: category deficits -/

/-- C3: `computeCategoryDeficits` returns one entry per requested name in
input order (same length, i-th name = i-th request); every entry satisfies
`deficit = max 0 ((min ?? 0) - current)`, hence `deficit ≥ 0`, with
`deficit = 0` when `min` is undefined or `current ≥ min`; and a category
present in neither the analysis nor the template yields the entry with
`current = 0`, `min`/`max` undefined and `deficit = 0`. -/
theorem computeCategoryDeficits_spec (analysis : DeckAnalysis) (template : DeckTemplate)
    (categoryNames : List String) :
    (computeCategoryDeficits analysis template categoryNames).length = categoryNames.length ∧
    (∀ i (h : i < categoryNames.length)
        (h' : i < (computeCategoryDeficits analysis template categoryNames).length),
      ((computeCategoryDeficits analysis template categoryNames).get ⟨i, h'⟩).name =
        categoryNames.get ⟨i, h⟩) ∧
    (∀ d ∈ computeCategoryDeficits analysis template categoryNames,
      d.deficit = max 0 ((d.min.getD 0) - (d.current : Int)) ∧
      0 ≤ d.deficit ∧
      (d.min = none → d.deficit = 0) ∧
      (∀ m, d.min = some m → m ≤ (d.current : Int) → d.deficit = 0)) ∧
    (∀ n ∈ categoryNames,
      analysis.categories.find? (fun c => c.name == n) = none →
      template.categories.find? (fun c => c.name == n) = none →
      ({ name := n, current := 0, min := none, max := none, deficit := 0 } : CategoryDeficit) ∈
        computeCategoryDeficits analysis template categoryNames) := by
  refine ⟨by simp [computeCategoryDeficits], ?_, ?_, ?_⟩
  · intro i h h'
    simp [computeCategoryDeficits]
  · intro d hd
    simp only [computeCategoryDeficits, List.mem_map] at hd
    obtain ⟨n, hn, rfl⟩ := hd
    refine ⟨rfl, by positivity, ?_, ?_⟩
    · intro hnone
      dsimp only at hnone ⊢
      simp [hnone]
    · intro m hm hle
      dsimp only at hm hle ⊢
      simp only [hm, Option.getD_some]
      omega
  · intro n hn hfa hft
    simp only [computeCategoryDeficits, List.mem_map]
    refine ⟨n, hn, ?_⟩
    simp [hfa, hft]

/-- Witness for C3 at a concrete analysis / template / request list. -/
theorem computeCategoryDeficits_spec_witness :
    ({ name := "nope", current := 0, min := none, max := none, deficit := 0 } : CategoryDeficit) ∈
      computeCategoryDeficits
        { commanderName := none, totalCards := 0, uniqueCards := 0,
          categories := [{ name := "ramp", count := 2, min := some 8, max := some 10,
                           status := CategoryStatus.below }],
          notes := [], bracketId := none, bracketLabel := none, bracketWarnings := [] }
        { id := "t", categories := [{ name := "ramp", min := some 8, max := some 10 }] }
        ["ramp", "nope"] :=
  (computeCategoryDeficits_spec _ _ _).2.2.2 "nope" (by simp) (by decide) (by decide)

/-! ## Concrete environments for the builder/analyzer claims -/

/-- A colorless commander present in the card database. -/
def commanderColorless : OracleCard :=
  { name := "Cmdr", type_line := some "Legendary Artifact Creature",
    oracle_text := none, color_identity := some [] }

/-- A template whose lands category recommends exactly one land. -/
def smallTemplate : DeckTemplate :=
  { id := "bracket3", categories := [{ name := "lands", min := some 1, max := some 1 }] }

/-- Environment: commander resolvable, "bracket3" template on disk, no
bracket data, recommendation service down. -/
def envNoBrackets : Env :=
  { getCardByName := fun n => if n = "Cmdr" then some commanderColorless else none
    templateData := fun id => if id = "bracket3" then some smallTemplate else none
    bracketRulesData := none
    bracketLists := fun _ => none
    edhrecFetch := fun _ => Except.error "EDHREC unavailable" }

/-- Environment: commander resolvable but every template file missing. -/
def envTplMissing : Env :=
  { getCardByName := fun n => if n = "Cmdr" then some commanderColorless else none
    templateData := fun _ => none
    bracketRulesData := none
    bracketLists := fun _ => none
    edhrecFetch := fun _ => Except.error "EDHREC unavailable" }

/-- A build input giving only the commander name (plus a recommendation fetch). -/
def plainBuildInput : BuildDeckInput :=
  { commanderName := "Cmdr", templateId := none, bracketId := none, banlistId := none,
    seedCards := none, useEdhrec := some true, useEdhrecAutofill := none }

/-! ## C4: build failure semantics -/

/-- Counterexample to C4 as stated: with every template file missing, the
build propagates an error even though the commander lookup succeeded, so
"raises an error only if Card Lookup fails to resolve the commander" is
false on the code. -/
theorem buildDeck_error_without_lookup_failure :
    envTplMissing.getCardByName plainBuildInput.commanderName = some commanderColorless ∧
    (buildDeckFromCommander envTplMissing plainBuildInput).toOption = none := by
  constructor <;> decide

/-- C4 (amended): the build propagates an error exactly when the commander
lookup fails or the deck-template load fails; when it succeeds, a
bracket-rules load failure or a recommendation-fetch failure only appends a
warning note; and the autofill Game-Changer cap falls back to 3 when bracket
rules are absent. -/
theorem buildDeck_failure_semantics (env : Env) (input : BuildDeckInput) :
    ((buildDeckFromCommander env input).toOption = none ↔
      (env.getCardByName input.commanderName = none ∨
        (loadDeckTemplate env (some (orDefault input.templateId "bracket3"))).toOption = none)) ∧
    (∀ r, buildDeckFromCommander env input = Except.ok r →
      (loadBracketRules env (orDefault input.bracketId "bracket3")).toOption = none →
      ("Warning: Could not load bracket rules for \"" ++ orDefault input.bracketId "bracket3" ++ "\".") ∈ r.notes) ∧
    (∀ r card msg, buildDeckFromCommander env input = Except.ok r →
      env.getCardByName input.commanderName = some card →
      (input.useEdhrec.getD false || input.useEdhrecAutofill.getD false) = true →
      env.edhrecFetch (card.color_identity.getD []) = Except.error msg →
      ("⚠️  EDHREC: Could not fetch suggestions. " ++ msg) ∈ r.notes) ∧
    maxGameChangersOf none = 3 := by
  refine ⟨?_, ?_, ?_, rfl⟩
  · constructor
    · intro herr
      by_contra hcon
      push_neg at hcon
      obtain ⟨h1, h2⟩ := hcon
      obtain ⟨card, hc⟩ := Option.ne_none_iff_exists'.mp h1
      obtain ⟨template, ht⟩ := Option.ne_none_iff_exists'.mp h2
      have htload : loadDeckTemplate env (some (orDefault input.templateId "bracket3")) = Except.ok template := by
        cases hx : loadDeckTemplate env (some (orDefault input.templateId "bracket3")) with
        | ok t => rw [hx] at ht; simp [Except.toOption] at ht; rw [ht]
        | error e => rw [hx] at ht; simp [Except.toOption] at ht
      obtain ⟨r, hr⟩ : ∃ r, buildDeckFromCommander env input = Except.ok r := by
        simp only [buildDeckFromCommander, hc, htload, analyzeDeckBasic]
        repeat' split
        all_goals exact ⟨_, rfl⟩
      rw [hr] at herr
      simp [Except.toOption] at herr
    · intro h
      rcases h with hc | ht
      · simp [buildDeckFromCommander, hc, Except.toOption]
      · obtain ⟨e, he⟩ : ∃ e, loadDeckTemplate env (some (orDefault input.templateId "bracket3")) = Except.error e := by
          cases hx : loadDeckTemplate env (some (orDefault input.templateId "bracket3")) with
          | ok t => rw [hx] at ht; simp [Except.toOption] at ht
          | error e => exact ⟨e, rfl⟩
        cases hc : env.getCardByName input.commanderName with
        | none => simp [buildDeckFromCommander, hc, Except.toOption]
        | some card => simp [buildDeckFromCommander, hc, he, Except.toOption]
  · intro r hok hbr
    cases hc : env.getCardByName input.commanderName with
    | none => rw [buildDeckFromCommander, hc] at hok; cases hok
    | some card =>
      cases ht : loadDeckTemplate env (some (orDefault input.templateId "bracket3")) with
      | error e => rw [buildDeckFromCommander, hc] at hok; simp only [ht] at hok; cases hok
      | ok template =>
        cases hbre : loadBracketRules env (orDefault input.bracketId "bracket3") with
        | ok rules => rw [hbre] at hbr; simp [Except.toOption] at hbr
        | error e =>
          simp only [buildDeckFromCommander, hc, ht, analyzeDeckBasic, hbre] at hok
          repeat' split at hok
          all_goals (injection hok with h; subst h; simp)
  · intro r card msg hok hc hshould hfetch
    cases ht : loadDeckTemplate env (some (orDefault input.templateId "bracket3")) with
    | error e => rw [buildDeckFromCommander, hc] at hok; simp only [ht] at hok; cases hok
    | ok template =>
      simp only [buildDeckFromCommander, hc, ht, analyzeDeckBasic, hshould, hfetch,
        eq_self_iff_true, if_true] at hok
      repeat' split at hok
      all_goals (injection hok with h; subst h; simp)

/-- Witness for C4 (amended) at a concrete environment. -/
theorem buildDeck_failure_semantics_witness :
    (buildDeckFromCommander envTplMissing plainBuildInput).toOption = none ↔
      (envTplMissing.getCardByName plainBuildInput.commanderName = none ∨
        (loadDeckTemplate envTplMissing (some (orDefault plainBuildInput.templateId "bracket3"))).toOption = none) :=
  (buildDeck_failure_semantics envTplMissing plainBuildInput).1

/-! ## C5: analyzer template defaulting -/

/-- The "default" template available on disk. -/
def defaultTemplate : DeckTemplate :=
  { id := "default", categories := [{ name := "defaultcat", min := none, max := none }] }

/-- A distinct "bracket3" template also available on disk. -/
def bracket3Template : DeckTemplate :=
  { id := "bracket3", categories := [{ name := "bracket3cat", min := none, max := none }] }

/-- Bracket rules resolvable for every bracket id. -/
def bracket3Rules : BracketRules :=
  { id := "bracket3", label := "Bracket 3: Upgraded", maxGameChangers := 3,
    allowMassLandDestruction := false, allowInfiniteTwoCardCombosBeforeTurnSix := false,
    maxExtraTurnCards := some 2 }

/-- Environment with both the "default" and the "bracket3" template on disk
and with bracket rules resolvable for every identifier. -/
def envBothTemplates : Env :=
  { getCardByName := fun _ => none
    templateData := fun id =>
      if id = "default" then some defaultTemplate
      else if id = "bracket3" then some bracket3Template else none
    bracketRulesData := some (fun _ => some bracket3Rules)
    bracketLists := fun _ => none
    edhrecFetch := fun _ => Except.error "EDHREC unavailable" }

/-- C5 (divergence of the code from its own documented default): invoked with
no template id, `analyzeDeckBasic` analyzes with the "default" template — not
"bracket3", although that template is on disk — and does not attempt to load
bracket rules at all (`bracketId` stays unset), although rules are resolvable
for every identifier in this environment. -/
theorem analyze_without_templateId_uses_default_template :
    (analyzeDeckBasic envBothTemplates
        { deckText := "1 Island", templateId := none, banlistId := none }
        (parseDeckText "1 Island")).toOption.map
      (fun r => (r.analysis.categories.map (fun c => c.name), r.analysis.bracketId)) =
      some (["defaultcat"], none) ∧
    envBothTemplates.templateData "bracket3" = some bracket3Template ∧
    loadBracketRules envBothTemplates "bracket3" = Except.ok bracket3Rules := by
  refine ⟨by decide, rfl, rfl⟩

/-! ## C8: the land base built by the builder -/

/-- Sum of the one-per-color extra land indicators over an indexed list. -/
theorem extras_sum {α : Type} (r : Int) :
    ∀ (l : List α) (k : Nat),
      ((l.enumFrom k).map (fun p => if ((p.1 : Nat) : Int) < r then (1 : Int) else 0)).sum
        = (((r - k).toNat ⊓ l.length : Nat) : Int) := by
  intro l
  induction l with
  | nil => intro k; simp
  | cons a tl ih =>
    intro k
    simp only [List.enumFrom, List.map_cons, List.sum_cons, List.length_cons]
    rw [ih (k + 1)]
    split <;> push_cast <;> omega

/-- Summing a constant plus a remainder term over a list. -/
theorem sum_map_const_add {α : Type} (d : Int) (f : α → Int) :
    ∀ l : List α, (l.map (fun x => d + f x)).sum = l.length * d + (l.map f).sum := by
  intro l
  induction l with
  | nil => simp
  | cons a tl ih =>
    simp only [List.map_cons, List.sum_cons, List.length_cons, ih]
    push_cast
    ring

/-- C8: the land target is `Math.round((landsMin + landsMax) / 2)` with 35/38
defaults when the template has no lands category; a colorless identity yields
one generic basic-land entry at exactly the target quantity; a colored
identity yields one entry per mapped basic-land name, in color-identity
order, with quantity `⌊t/n⌋` plus one extra for the first `t mod n` entries,
so the quantities sum to the target and pairwise differ by at most 1. -/
theorem builder_land_base_spec (template : DeckTemplate) :
    (template.categories.find? (fun cat => cat.name == "lands") = none →
      landsMinOf template = 35 ∧ landsMaxOf template = 38 ∧ targetLandCount template = 37) ∧
    ((landsMinOf template + landsMaxOf template) % 2 = 0 →
      2 * targetLandCount template = landsMinOf template + landsMaxOf template) ∧
    ((landsMinOf template + landsMaxOf template) % 2 ≠ 0 →
      2 * targetLandCount template = landsMinOf template + landsMaxOf template + 1) ∧
    (∀ t : Int, landEntriesFor [] t =
      [{ name := "Wastes", quantity := t, roles := some [CardRole.land] }]) ∧
    (∀ (colorIdentity : List String) (t : Int), 0 ≤ t →
      colorIdentity.filterMap mapColorToBasicLand ≠ [] →
      ((landEntriesFor colorIdentity t).map (fun e => e.name) =
          colorIdentity.filterMap mapColorToBasicLand) ∧
      builtTotal (landEntriesFor colorIdentity t) = t ∧
      (∀ i (h : i < (landEntriesFor colorIdentity t).length),
        ((landEntriesFor colorIdentity t).get ⟨i, h⟩).quantity =
          Int.fdiv t ((colorIdentity.filterMap mapColorToBasicLand).length : Int) +
            (if (i : Int) < Int.tmod t ((colorIdentity.filterMap mapColorToBasicLand).length : Int) then 1 else 0)) ∧
      (∀ q ∈ (landEntriesFor colorIdentity t).map (fun e => e.quantity),
       ∀ q' ∈ (landEntriesFor colorIdentity t).map (fun e => e.quantity), q ≤ q' + 1)) := by
  refine ⟨?_, ?_, ?_, ?_, ?_⟩
  · intro h
    refine ⟨by simp [landsMinOf, h], by simp [landsMaxOf, h], ?_⟩
    simp only [targetLandCount, landsMinOf, landsMaxOf, h, Option.bind]
    decide
  · intro h
    simp only [targetLandCount]
    rw [Int.fdiv_eq_ediv _ (by decide : (0 : Int) ≤ 2)]
    omega
  · intro h
    simp only [targetLandCount]
    rw [Int.fdiv_eq_ediv _ (by decide : (0 : Int) ≤ 2)]
    omega
  · intro t
    simp [landEntriesFor]
  · intro colorIdentity t ht hne
    have hci : colorIdentity.isEmpty = false := by
      cases colorIdentity with
      | nil => simp at hne
      | cons a l => rfl
    have hbl : (colorIdentity.filterMap mapColorToBasicLand).isEmpty = false := by
      simpa [List.isEmpty_iff] using hne
    set bl := colorIdentity.filterMap mapColorToBasicLand with hbldef
    have hunfold : landEntriesFor colorIdentity t =
        bl.enum.map (fun p =>
          { name := p.2
            quantity := Int.fdiv t (bl.length : Int) +
              (if ((p.1 : Nat) : Int) < Int.tmod t (bl.length : Int) then 1 else 0)
            roles := some [CardRole.land] }) := by
      rw [landEntriesFor]
      rw [if_neg (by simp [hci]), if_neg (by simp [hbl])]
    have hn : 0 < bl.length := by
      cases hb : bl with
      | nil => rw [hb] at hne; exact absurd rfl hne
      | cons a l => simp [hb]
    have hnz : ((bl.length : Int)) ≠ 0 := by exact_mod_cast Nat.pos_iff_ne_zero.mp hn
    have hnn : (0 : Int) ≤ (bl.length : Int) := Int.ofNat_nonneg _
    have hgetq : ∀ i (h : i < (landEntriesFor colorIdentity t).length),
        ((landEntriesFor colorIdentity t).get ⟨i, h⟩).quantity =
          Int.fdiv t (bl.length : Int) +
            (if (i : Int) < Int.tmod t (bl.length : Int) then 1 else 0) := by
      intro i h
      simp only [hunfold, List.get_eq_getElem, List.getElem_map, List.enum, List.getElem_enumFrom]
      simp
    refine ⟨?_, ?_, hgetq, ?_⟩
    · simp only [hunfold, List.map_map, Function.comp_def]
      exact List.enumFrom_map_snd 0 bl
    · simp only [hunfold, builtTotal, List.map_map, Function.comp_def]
      rw [sum_map_const_add (Int.fdiv t (bl.length : Int))
        (fun p : Nat × String =>
          if ((p.1 : Nat) : Int) < Int.tmod t (bl.length : Int) then (1 : Int) else 0)]
      rw [List.enum, extras_sum (Int.tmod t (bl.length : Int)) bl 0]
      have hfd : Int.fdiv t (bl.length : Int) = t / (bl.length : Int) := Int.fdiv_eq_ediv t hnn
      have htm : Int.tmod t (bl.length : Int) = t % (bl.length : Int) := Int.tmod_eq_emod ht hnn
      have h1 : 0 ≤ t % (bl.length : Int) := Int.emod_nonneg t hnz
      have h2 : t % (bl.length : Int) < (bl.length : Int) :=
        Int.emod_lt_of_pos t (by exact_mod_cast hn)
      have h3 := Int.ediv_add_emod t (bl.length : Int)
      simp only [hfd, htm, List.enumFrom_length]
      omega
    · have hqd : ∀ q ∈ (landEntriesFor colorIdentity t).map (fun e => e.quantity),
          q = Int.fdiv t (bl.length : Int) ∨ q = Int.fdiv t (bl.length : Int) + 1 := by
        intro q hq
        rw [List.mem_map] at hq
        obtain ⟨e, he, rfl⟩ := hq
        rw [List.mem_iff_getElem] at he
        obtain ⟨i, hi, rfl⟩ := he
        have := hgetq i hi
        simp only [List.get_eq_getElem] at this
        rw [this]
        split
        · right; rfl
        · left; omega
      intro q hq q' hq'
      rcases hqd q hq with h | h <;> rcases hqd q' hq' with h' | h' <;> omega

/-- Witness for C8 at a two-color identity and the default 35/38 target. -/
theorem builder_land_base_spec_witness :
    targetLandCount { id := "t", categories := [] } = 37 ∧
    builtTotal (landEntriesFor ["U", "B"] 37) = 37 :=
  ⟨((builder_land_base_spec { id := "t", categories := [] }).1 (by decide)).2.2,
   ((builder_land_base_spec { id := "t", categories := [] }).2.2.2.2 ["U", "B"] 37
      (by decide) (by decide)).2.1⟩

/-! ## C9: round-trip between built decks and the deck-text parser -/

/-- The `splitOnChar` always returns at least one piece. -/
theorem splitOnChar_ne_nil (c : Char) (cs : List Char) : splitOnChar c cs ≠ [] := by
  cases cs with
  | nil => simp [splitOnChar]
  | cons a rest =>
    simp only [splitOnChar]
    split <;> simp

/-- Splitting a separator-free line leaves it whole. -/
theorem splitOnChar_no_sep (c : Char) (l : List Char) (h : c ∉ l) :
    splitOnChar c l = [l] := by
  induction l with
  | nil => rfl
  | cons a rest ih =>
    have ha : a ≠ c := by intro hac; exact h (by simp [hac])
    have hr : splitOnChar c rest = [rest] := ih (fun hm => h (by simp [hm]))
    simp only [splitOnChar, hr]
    rw [if_neg ha]
    rfl

/-- Splitting a separator-free line followed by a separator peels the line off. -/
theorem splitOnChar_append (c : Char) (l rest : List Char) (h : c ∉ l) :
    splitOnChar c (l ++ c :: rest) = l :: splitOnChar c rest := by
  induction l with
  | nil =>
    simp [List.nil_append, splitOnChar]
  | cons a l2 ih =>
    have ha : a ≠ c := by intro hac; exact h (by simp [hac])
    have hl2 : c ∉ l2 := fun hm => h (by simp [hm])
    simp only [List.cons_append, splitOnChar, List.append_eq]
    rw [if_neg ha, ih hl2]
    rfl

/-- Splitting the newline-join of newline-free lines recovers the lines. -/
theorem splitOnChar_joinWithNewline (ls : List (List Char))
    (hne : ls ≠ []) (h : ∀ l ∈ ls, '\n' ∉ l) :
    splitOnChar '\n' (joinWithNewline ls) = ls := by
  induction ls with
  | nil => exact absurd rfl hne
  | cons l rest ih =>
    cases rest with
    | nil =>
      simp only [joinWithNewline]
      exact splitOnChar_no_sep '\n' l (h l (by simp))
    | cons l2 rest2 =>
      simp only [joinWithNewline]
      rw [splitOnChar_append '\n' l _ (h l (by simp))]
      rw [ih (by simp) (fun x hx => h x (by simp [hx]))]

/-- Dropping a prefix-predicate across an append whose left part is not
entirely satisfied stops inside the left part. -/
theorem dropWhile_append_of_not_all {p : Char → Bool} (xs ys : List Char)
    (h : ¬ xs.all p = true) :
    List.dropWhile p (xs ++ ys) = List.dropWhile p xs ++ ys := by
  induction xs with
  | nil => simp at h
  | cons a xs ih =>
    by_cases hp : p a = true
    · simp only [List.all_cons, hp, Bool.true_and] at h
      simp only [List.cons_append, List.dropWhile_cons_of_pos hp, ih h]
    · simp only [List.cons_append, List.dropWhile_cons_of_neg hp]

/-- An all-whitespace line trims to nothing. -/
theorem trimChars_eq_nil_of_all (cs : List Char) (h : cs.all isWS = true) :
    trimChars cs = [] := by
  have h1 : List.dropWhile isWS cs = [] :=
    List.dropWhile_eq_nil_iff.mpr (fun x hx => by
      have := List.all_eq_true.mp h x hx
      exact this)
  simp [trimChars, h1]

/-- A per-copy line `"1 <name>"` with a non-blank name parses to a single
entry of quantity 1. -/
theorem parseLine_per_copy (cs : List Char) (hne : trimChars cs ≠ []) :
    ∃ e : ParsedCardEntry,
      parseLine (String.mk ('1' :: ' ' :: cs)) = some e ∧ e.quantity = 1 := by
  have hna : ¬ cs.all isWS = true := fun hall => hne (trimChars_eq_nil_of_all cs hall)
  have hnar : ¬ cs.reverse.all isWS = true := by
    rw [List.all_reverse]; exact hna
  have htr : trimChars ('1' :: ' ' :: cs) =
      '1' :: ' ' :: (List.dropWhile isWS cs.reverse).reverse := by
    unfold trimChars
    rw [List.dropWhile_cons_of_neg (by decide)]
    rw [show ('1' :: ' ' :: cs).reverse = cs.reverse ++ [' ', '1'] by simp]
    rw [dropWhile_append_of_not_all cs.reverse [' ', '1'] hnar]
    simp
  have hpl : parseLine (String.mk ('1' :: ' ' :: cs)) =
      some { rawLine := String.mk ('1' :: ' ' :: cs), quantity := natOfDigits ['1'],
             name := String.mk (trimChars (' ' :: (List.dropWhile isWS cs.reverse).reverse)) } := by
    unfold parseLine
    rw [show (String.mk ('1' :: ' ' :: cs)).toList = '1' :: ' ' :: cs from rfl]
    rw [htr]
    rfl
  exact ⟨_, hpl, rfl⟩

/-- Summing the parsed quantities when every line parses at quantity 1. -/
theorem parsed_quantity_sum (ls : List (List Char))
    (h : ∀ cs ∈ ls, ∃ e : ParsedCardEntry,
      parseLine (String.mk cs) = some e ∧ e.quantity = 1) :
    (((ls.map String.mk).filterMap parseLine).map (fun c => c.quantity)).sum = ls.length := by
  induction ls with
  | nil => rfl
  | cons l rest ih =>
    obtain ⟨e, he, hq⟩ := h l (by simp)
    simp only [List.map_cons, List.filterMap_cons, he, List.length_cons]
    simp only [List.map_cons, List.sum_cons, hq]
    rw [ih (fun cs hcs => h cs (by simp [hcs]))]
    omega

/-- The character-level shape of the per-copy lines. -/
theorem deckToPerCopyLines_chars (cards : List BuiltCardEntry) :
    (deckToPerCopyLines cards).map String.toList =
      cards.flatMap (fun e => List.replicate e.quantity.toNat ('1' :: ' ' :: e.name.toList)) := by
  unfold deckToPerCopyLines
  rw [List.map_flatMap]
  refine List.flatMap_congr ?_
  intro e _
  rw [List.map_replicate]
  rfl

/-- Length of a flatMap of replicates. -/
theorem length_flatMap_replicate {α β : Type} (l : List α) (g : α → Nat) (x : α → β) :
    (l.flatMap (fun a => List.replicate (g a) (x a))).length = (l.map g).sum := by
  induction l with
  | nil => rfl
  | cons a rest ih =>
    simp only [List.flatMap_cons, List.length_append, List.length_replicate,
      List.map_cons, List.sum_cons, ih]

/-- The natural total of nonnegative built quantities casts to `builtTotal`. -/
theorem builtTotal_toNat (cards : List BuiltCardEntry)
    (hq : ∀ e ∈ cards, 0 ≤ e.quantity) :
    (((cards.map (fun e => e.quantity.toNat)).sum : Nat) : Int) = builtTotal cards := by
  induction cards with
  | nil => rfl
  | cons e rest ih =>
    simp only [List.map_cons, List.sum_cons, builtTotal] at *
    rw [Nat.cast_add, Int.toNat_of_nonneg (hq e (by simp)),
      ih (fun x hx => hq x (by simp [hx]))]

/-- C9 (amended): for every built card list whose entry names contain no
newline and are not blank (so that each per-copy line re-parses), flattening
to per-copy `"1 <name>"` lines and re-parsing yields a deck whose total card
count equals the total quantity of the built deck (quantities being nonnegative). -/
theorem deck_roundtrip_total (cards : List BuiltCardEntry)
    (hq : ∀ e ∈ cards, 0 ≤ e.quantity)
    (hn : ∀ e ∈ cards, '\n' ∉ e.name.toList ∧ trimChars e.name.toList ≠ []) :
    (parsedTotal (parseDeckText (joinLines (deckToPerCopyLines cards))) : Int) =
      builtTotal cards := by
  have hchars := deckToPerCopyLines_chars cards
  set charLines :=
    cards.flatMap (fun e => List.replicate e.quantity.toNat ('1' :: ' ' :: e.name.toList))
    with hcl
  have hshape : ∀ cs ∈ charLines, ∃ e2 ∈ cards, cs = '1' :: ' ' :: e2.name.toList := by
    intro cs hcs
    rw [hcl, List.mem_flatMap] at hcs
    obtain ⟨a, ha, hmem⟩ := hcs
    rw [List.mem_replicate] at hmem
    exact ⟨a, ha, hmem.2⟩
  by_cases hor : charLines = []
  · have hlines : deckToPerCopyLines cards = [] := by
      rw [hor] at hchars
      exact List.map_eq_nil_iff.mp hchars
    rw [hlines]
    have hz : parsedTotal (parseDeckText (joinLines [])) = 0 := rfl
    rw [hz]
    have hall : ∀ e ∈ cards, e.quantity = 0 := by
      intro e he
      have h0 : List.replicate e.quantity.toNat ('1' :: ' ' :: e.name.toList) = [] := by
        rw [hcl] at hor
        exact List.flatMap_eq_nil_iff.mp hor e he
      have h1 : e.quantity.toNat = 0 := by simpa using congrArg List.length h0
      have h2 := hq e he
      omega
    have hb : builtTotal cards = 0 := by
      unfold builtTotal
      apply List.sum_eq_zero
      intro x hx
      rw [List.mem_map] at hx
      obtain ⟨e, he, rfl⟩ := hx
      exact hall e he
    rw [hb]
    simp
  · have hnl : ∀ l ∈ charLines, '\n' ∉ l := by
      intro l hl
      obtain ⟨e2, he2, rfl⟩ := hshape l hl
      intro hmem
      rcases List.mem_cons.mp hmem with h1 | hmem
      · exact absurd h1 (by decide)
      · rcases List.mem_cons.mp hmem with h2 | hmem
        · exact absurd h2 (by decide)
        · exact (hn e2 he2).1 hmem
    have hsplit : splitOnChar '\n' (joinWithNewline charLines) = charLines :=
      splitOnChar_joinWithNewline charLines hor hnl
    have hparse : parseDeckText (joinLines (deckToPerCopyLines cards)) =
        { commanderName := none
          cards := (charLines.map String.mk).filterMap parseLine } := by
      unfold parseDeckText joinLines
      rw [show (String.mk (joinWithNewline ((deckToPerCopyLines cards).map String.toList))).toList
          = joinWithNewline ((deckToPerCopyLines cards).map String.toList) from rfl]
      rw [hchars, hsplit]
    rw [hparse]
    have hq1 : ∀ cs ∈ charLines, ∃ e : ParsedCardEntry,
        parseLine (String.mk cs) = some e ∧ e.quantity = 1 := by
      intro cs hcs
      obtain ⟨e2, he2, rfl⟩ := hshape cs hcs
      exact parseLine_per_copy e2.name.toList (hn e2 he2).2
    unfold parsedTotal
    rw [parsed_quantity_sum charLines hq1]
    rw [hcl, length_flatMap_replicate cards (fun e => e.quantity.toNat)
      (fun e => '1' :: ' ' :: e.name.toList)]
    exact builtTotal_toNat cards hq

/-- Witness for C9 (amended) at a concrete one-entry deck. -/
theorem deck_roundtrip_total_witness :
    (parsedTotal (parseDeckText (joinLines (deckToPerCopyLines
        [{ name := "Wastes", quantity := 2, roles := some [CardRole.land] }]))) : Int) =
      builtTotal [{ name := "Wastes", quantity := 2, roles := some [CardRole.land] }] :=
  deck_roundtrip_total _ (by decide) (by decide)

/-- A build input that seeds the deck with a blank card name. -/
def blankSeedInput : BuildDeckInput :=
  { commanderName := "Cmdr", templateId := none, bracketId := none, banlistId := none,
    seedCards := some [""], useEdhrec := none, useEdhrecAutofill := none }

/-- Counterexample to C9 as stated: the builder accepts a blank seed-card
name; the resulting built deck has total quantity 2, but its per-copy line
"1 " fails to re-parse, so the re-parsed total is 1. -/
theorem deck_roundtrip_counterexample :
    (buildDeckFromCommander envNoBrackets blankSeedInput).toOption.map
      (fun r => (builtTotal r.deck.cards,
        (parsedTotal (parseDeckText (joinLines (deckToPerCopyLines r.deck.cards))) : Int))) =
      some (2, 1) ∧ (2 : Int) ≠ 1 := by
  constructor
  · decide
  · decide

/-! ## C2: autofill invariants -/

/-- The card lookup returns cards whose canonical name agrees with the query
up to case (and up to case after trimming), as the Scryfall lookup guarantees. -/
def NameConsistent (env : Env) : Prop :=
  ∀ s c, env.getCardByName s = some c →
    lowerStr c.name = lowerStr s ∧ normalizeCardName c.name = normalizeCardName s

/-- The per-entry guarantees of an autofill append for a target category. -/
def autofillGoodEntry (env : Env) (bracketId : String) (colorIdentity : List String)
    (categoryName : String) (e : BuiltCardEntry) : Prop :=
  e.quantity = 1 ∧
  isMassLandDenial env e.name bracketId = false ∧
  isExtraTurnCard env e.name bracketId = false ∧
  ∃ card : OracleCard, e.name = card.name ∧
    e.roles = some (classifyCardRoles (some card)) ∧
    (card.color_identity.getD []).all (fun c => colorIdentity.contains c) = true ∧
    (cardRolesToCategories (classifyCardRoles (some card))).contains categoryName = true

/-- Game-Changer membership only depends on the normalized card name. -/
theorem isGameChanger_congr (env : Env) (bid : String) {a b : String}
    (h : normalizeCardName a = normalizeCardName b) :
    isGameChanger env a bid = isGameChanger env b bid := by
  unfold isGameChanger
  cases env.bracketLists bid with
  | none => rfl
  | some lists => simp only [h]

/-- Mass-land-denial membership only depends on the normalized card name. -/
theorem isMassLandDenial_congr (env : Env) (bid : String) {a b : String}
    (h : normalizeCardName a = normalizeCardName b) :
    isMassLandDenial env a bid = isMassLandDenial env b bid := by
  unfold isMassLandDenial
  cases env.bracketLists bid with
  | none => rfl
  | some lists => simp only [h]

/-- Extra-turn membership only depends on the normalized card name. -/
theorem isExtraTurnCard_congr (env : Env) (bid : String) {a b : String}
    (h : normalizeCardName a = normalizeCardName b) :
    isExtraTurnCard env a bid = isExtraTurnCard env b bid := by
  unfold isExtraTurnCard
  cases env.bracketLists bid with
  | none => rfl
  | some lists => simp only [h]

/-- The no-append outcome of the inner autofill scan. -/
theorem fillGo_unchanged_spec (env : Env) (bid : String) (ci : List String) (maxGC : Int)
    (cn : String) (suggs : List EdhrecCardSuggestion) (st : FillSt)
    (hseen : st.seen = st.built.map (fun e => lowerStr e.name))
    (hres : fillCategoryGo env bid ci maxGC cn suggs st = st) :
    ∃ app : List BuiltCardEntry,
      (fillCategoryGo env bid ci maxGC cn suggs st).built = st.built ++ app ∧
      (fillCategoryGo env bid ci maxGC cn suggs st).seen =
        (st.built ++ app).map (fun e => lowerStr e.name) ∧
      (∀ e ∈ app, autofillGoodEntry env bid ci cn e) ∧
      (∀ e ∈ app, lowerStr e.name ∉ st.built.map (fun x => lowerStr x.name)) ∧
      (app.map (fun e => lowerStr e.name)).Nodup ∧
      (fillCategoryGo env bid ci maxGC cn suggs st).gc =
        st.gc + (app.filter (fun e => isGameChanger env e.name bid)).length ∧
      (app.filter (fun e => isGameChanger env e.name bid)).length ≤ (maxGC - st.gc).toNat := by
  refine ⟨[], ?_, ?_, by simp, by simp, by simp, ?_, by simp⟩
  · rw [hres]; simp
  · rw [hres]; simpa using hseen
  · rw [hres]; simp

/-- Invariants of the inner autofill scan, by induction on the suggestions. -/
theorem fillCategoryGo_spec (env : Env) (bid : String) (ci : List String) (maxGC : Int)
    (cn : String) (hcons : NameConsistent env) :
    ∀ (suggs : List EdhrecCardSuggestion) (st : FillSt),
      st.seen = st.built.map (fun e => lowerStr e.name) →
      ∃ app : List BuiltCardEntry,
        (fillCategoryGo env bid ci maxGC cn suggs st).built = st.built ++ app ∧
        (fillCategoryGo env bid ci maxGC cn suggs st).seen =
          (st.built ++ app).map (fun e => lowerStr e.name) ∧
        (∀ e ∈ app, autofillGoodEntry env bid ci cn e) ∧
        (∀ e ∈ app, lowerStr e.name ∉ st.built.map (fun x => lowerStr x.name)) ∧
        (app.map (fun e => lowerStr e.name)).Nodup ∧
        (fillCategoryGo env bid ci maxGC cn suggs st).gc =
          st.gc + (app.filter (fun e => isGameChanger env e.name bid)).length ∧
        (app.filter (fun e => isGameChanger env e.name bid)).length ≤ (maxGC - st.gc).toNat := by
  intro suggs
  induction suggs with
  | nil =>
    intro st hseen
    exact fillGo_unchanged_spec env bid ci maxGC cn [] st hseen rfl
  | cons s rest ih =>
    intro st hseen
    by_cases h1 : st.remaining ≤ 0
    · exact fillGo_unchanged_spec env bid ci maxGC cn (s :: rest) st hseen
        (by simp only [fillCategoryGo]; rw [if_pos h1])
    · by_cases h2 : st.seen.contains (lowerStr s.name) = true
      · rw [show fillCategoryGo env bid ci maxGC cn (s :: rest) st =
            fillCategoryGo env bid ci maxGC cn rest st by
          simp only [fillCategoryGo]; rw [if_neg h1, if_pos h2]]
        exact ih st hseen
      · cases hlook : env.getCardByName s.name with
        | none =>
          rw [show fillCategoryGo env bid ci maxGC cn (s :: rest) st =
              fillCategoryGo env bid ci maxGC cn rest st by
            simp only [fillCategoryGo]
            rw [if_neg h1, if_neg h2, hlook]]
          exact ih st hseen
        | some card =>
          by_cases h4 : (!((card.color_identity.getD []).all (fun c => ci.contains c))) = true
          · rw [show fillCategoryGo env bid ci maxGC cn (s :: rest) st =
                fillCategoryGo env bid ci maxGC cn rest st by
              simp only [fillCategoryGo]
              rw [if_neg h1, if_neg h2]
              simp only [hlook]
              rw [if_pos h4]]
            exact ih st hseen
          · by_cases h5 : isGameChanger env s.name bid = true ∧ maxGC ≤ st.gc
            · rw [show fillCategoryGo env bid ci maxGC cn (s :: rest) st =
                  fillCategoryGo env bid ci maxGC cn rest st by
                simp only [fillCategoryGo]
                rw [if_neg h1, if_neg h2]
                simp only [hlook]
                rw [if_neg h4, if_pos h5]]
              exact ih st hseen
            · by_cases h6 : isMassLandDenial env s.name bid = true
              · rw [show fillCategoryGo env bid ci maxGC cn (s :: rest) st =
                    fillCategoryGo env bid ci maxGC cn rest st by
                  simp only [fillCategoryGo]
                  rw [if_neg h1, if_neg h2]
                  simp only [hlook]
                  rw [if_neg h4, if_neg h5, if_pos h6]]
                exact ih st hseen
              · by_cases h7 : isExtraTurnCard env s.name bid = true
                · rw [show fillCategoryGo env bid ci maxGC cn (s :: rest) st =
                      fillCategoryGo env bid ci maxGC cn rest st by
                    simp only [fillCategoryGo]
                    rw [if_neg h1, if_neg h2]
                    simp only [hlook]
                    rw [if_neg h4, if_neg h5, if_neg h6, if_pos h7]]
                  exact ih st hseen
                · by_cases h8 : (cardRolesToCategories (classifyCardRoles (some card))).contains cn = true
                  · -- append branch
                    have hnorm := (hcons s.name card hlook).2
                    have hlow := (hcons s.name card hlook).1
                    have hstep : fillCategoryGo env bid ci maxGC cn (s :: rest) st =
                        fillCategoryGo env bid ci maxGC cn rest
                          { built := st.built ++
                              [{ name := card.name, quantity := 1,
                                 roles := some (classifyCardRoles (some card)) }]
                            seen := st.seen ++ [lowerStr card.name]
                            gc := if isGameChanger env card.name bid then st.gc + 1 else st.gc
                            remaining := st.remaining - 1
                            added := st.added + 1 } := by
                      simp only [fillCategoryGo]
                      rw [if_neg h1, if_neg h2]
                      simp only [hlook]
                      rw [if_neg h4, if_neg h5, if_neg h6, if_neg h7]
                      simp only [h8, eq_self_iff_true, if_true]
                    set entry : BuiltCardEntry :=
                      { name := card.name, quantity := 1,
                        roles := some (classifyCardRoles (some card)) } with hentry
                    set st2 : FillSt :=
                      { built := st.built ++ [entry]
                        seen := st.seen ++ [lowerStr card.name]
                        gc := if isGameChanger env card.name bid then st.gc + 1 else st.gc
                        remaining := st.remaining - 1
                        added := st.added + 1 } with hst2
                    have hseen2 : st2.seen = st2.built.map (fun e => lowerStr e.name) := by
                      show st.seen ++ [lowerStr card.name] =
                        (st.built ++ [entry]).map (fun e => lowerStr e.name)
                      rw [List.map_append, hseen]
                      rfl
                    obtain ⟨app2, hb2, hs2, hg2, hf2, hnd2, hgc2, hbud2⟩ := ih st2 hseen2
                    have hfresh1 : lowerStr entry.name ∉
                        st.built.map (fun x => lowerStr x.name) := by
                      have : lowerStr s.name ∉ st.built.map (fun x => lowerStr x.name) := by
                        rw [← hseen]
                        simpa using h2
                      show lowerStr card.name ∉ _
                      rw [hlow]
                      exact this
                    have hmemlow : lowerStr entry.name ∈
                        st2.built.map (fun x => lowerStr x.name) := by
                      show lowerStr entry.name ∈ (st.built ++ [entry]).map (fun x => lowerStr x.name)
                      rw [List.map_append]
                      exact List.mem_append_right _ (by simp)
                    have hgood : autofillGoodEntry env bid ci cn entry := by
                      refine ⟨rfl, ?_, ?_, card, rfl, rfl, ?_, h8⟩
                      · rw [show entry.name = card.name from rfl,
                          isMassLandDenial_congr env bid hnorm]
                        cases hx : isMassLandDenial env s.name bid with
                        | false => rfl
                        | true => exact absurd hx h6
                      · rw [show entry.name = card.name from rfl,
                          isExtraTurnCard_congr env bid hnorm]
                        cases hx : isExtraTurnCard env s.name bid with
                        | false => rfl
                        | true => exact absurd hx h7
                      · cases hx : (card.color_identity.getD []).all (fun c => ci.contains c) with
                        | true => rfl
                        | false =>
                          refine absurd ?_ h4
                          rw [hx]
                          rfl
                    refine ⟨entry :: app2, ?_, ?_, ?_, ?_, ?_, ?_, ?_⟩
                    · rw [hstep, hb2]
                      simp [hst2]
                    · rw [hstep, hs2]
                      congr 1
                      simp [hst2]
                    · intro e he
                      rcases List.mem_cons.mp he with rfl | he2
                      · exact hgood
                      · exact hg2 e he2
                    · intro e he
                      rcases List.mem_cons.mp he with rfl | he2
                      · exact hfresh1
                      · intro hmem
                        refine hf2 e he2 ?_
                        show lowerStr e.name ∈ (st.built ++ [entry]).map (fun x => lowerStr x.name)
                        rw [List.map_append]
                        exact List.mem_append_left _ hmem
                    · rw [List.map_cons, List.nodup_cons]
                      refine ⟨?_, hnd2⟩
                      intro hmem
                      rw [List.mem_map] at hmem
                      obtain ⟨x, hx, hxeq⟩ := hmem
                      exact hf2 x hx (hxeq ▸ hmemlow)
                    · rw [hstep, hgc2]
                      cases hisgc : isGameChanger env card.name bid with
                      | true =>
                        have hentrygc : isGameChanger env entry.name bid = true := hisgc
                        have hst2gc : st2.gc = st.gc + 1 := by
                          show (if isGameChanger env card.name bid then st.gc + 1 else st.gc) = _
                          rw [if_pos hisgc]
                        simp only [List.filter_cons, hentrygc, if_true, hst2gc, List.length_cons]
                        push_cast
                        ring
                      | false =>
                        have hentrygc : isGameChanger env entry.name bid = false := hisgc
                        have hst2gc : st2.gc = st.gc := by
                          show (if isGameChanger env card.name bid then st.gc + 1 else st.gc) = _
                          rw [if_neg (by simp [hisgc])]
                        simp only [List.filter_cons, hentrygc, Bool.false_eq_true, if_false, hst2gc]
                    · cases hisgc : isGameChanger env card.name bid with
                      | true =>
                        have hentrygc : isGameChanger env entry.name bid = true := hisgc
                        simp only [List.filter_cons, hentrygc, if_true]
                        have hsugggc : isGameChanger env s.name bid = true := by
                          rw [← isGameChanger_congr env bid hnorm]
                          exact hisgc
                        have hlt : st.gc < maxGC := by
                          by_contra hge
                          exact h5 ⟨hsugggc, by omega⟩
                        have hst2gc : st2.gc = st.gc + 1 := by
                          show (if isGameChanger env card.name bid then st.gc + 1 else st.gc) = _
                          rw [if_pos hisgc]
                        rw [hst2gc] at hbud2
                        simp only [List.length_cons]
                        omega
                      | false =>
                        have hentrygc : isGameChanger env entry.name bid = false := hisgc
                        simp only [List.filter_cons, hentrygc, Bool.false_eq_true, if_false]
                        have hst2gc : st2.gc = st.gc := by
                          show (if isGameChanger env card.name bid then st.gc + 1 else st.gc) = _
                          rw [if_neg (by simp [hisgc])]
                        rw [hst2gc] at hbud2
                        exact hbud2
                  · rw [show fillCategoryGo env bid ci maxGC cn (s :: rest) st =
                        fillCategoryGo env bid ci maxGC cn rest st by
                      simp only [fillCategoryGo]
                      rw [if_neg h1, if_neg h2]
                      simp only [hlook]
                      rw [if_neg h4, if_neg h5, if_neg h6, if_neg h7]
                      exact if_neg h8]
                    exact ih st hseen

/-- Invariants of one outer autofill iteration. -/
theorem processCategory_spec (env : Env) (bid : String) (ci : List String) (maxGC : Int)
    (suggestions : List EdhrecCardSuggestion) (deficits : List CategoryDeficit)
    (hcons : NameConsistent env) (st : AutofillState) (cn : String)
    (hseen : st.cardsInDeck = st.builtCards.map (fun e => lowerStr e.name)) :
    ∃ app : List BuiltCardEntry,
      (processCategory env bid ci maxGC suggestions deficits st cn).builtCards =
        st.builtCards ++ app ∧
      (processCategory env bid ci maxGC suggestions deficits st cn).cardsInDeck =
        (st.builtCards ++ app).map (fun e => lowerStr e.name) ∧
      (∀ e ∈ app, autofillGoodEntry env bid ci cn e) ∧
      (∀ e ∈ app, lowerStr e.name ∉ st.builtCards.map (fun x => lowerStr x.name)) ∧
      (app.map (fun e => lowerStr e.name)).Nodup ∧
      (processCategory env bid ci maxGC suggestions deficits st cn).gameChangerCount =
        st.gameChangerCount + (app.filter (fun e => isGameChanger env e.name bid)).length ∧
      (app.filter (fun e => isGameChanger env e.name bid)).length ≤
        (maxGC - st.gameChangerCount).toNat := by
  cases hfind : deficits.find? (fun d => d.name == cn) with
  | none =>
    simp only [processCategory, hfind]
    exact ⟨[], by simp, by simpa using hseen, by simp, by simp, by simp, by simp, by simp⟩
  | some deficit =>
    by_cases hd : deficit.deficit ≤ 0
    · simp only [processCategory, hfind]
      rw [if_pos hd]
      exact ⟨[], by simp, by simpa using hseen, by simp, by simp, by simp, by simp, by simp⟩
    · simp only [processCategory, hfind]
      rw [if_neg hd]
      obtain ⟨app, hb, hs, hg, hf, hnd, hgc, hbud⟩ :=
        fillCategoryGo_spec env bid ci maxGC cn hcons suggestions
          { built := st.builtCards, seen := st.cardsInDeck, gc := st.gameChangerCount
            remaining := deficit.deficit, added := 0 } hseen
      exact ⟨app, hb, hs, hg, hf, hnd, hgc, hbud⟩

/-- Invariants of the outer autofill loop over a list of categories. -/
theorem autofill_foldl_spec (env : Env) (bid : String) (ci : List String) (maxGC : Int)
    (suggestions : List EdhrecCardSuggestion) (deficits : List CategoryDeficit)
    (hcons : NameConsistent env) :
    ∀ (cats : List String) (st : AutofillState),
      st.cardsInDeck = st.builtCards.map (fun e => lowerStr e.name) →
      ∃ app : List BuiltCardEntry,
        (cats.foldl (processCategory env bid ci maxGC suggestions deficits) st).builtCards =
          st.builtCards ++ app ∧
        (cats.foldl (processCategory env bid ci maxGC suggestions deficits) st).cardsInDeck =
          (st.builtCards ++ app).map (fun e => lowerStr e.name) ∧
        (∀ e ∈ app, ∃ cn ∈ cats, autofillGoodEntry env bid ci cn e) ∧
        (∀ e ∈ app, lowerStr e.name ∉ st.builtCards.map (fun x => lowerStr x.name)) ∧
        (app.map (fun e => lowerStr e.name)).Nodup ∧
        (cats.foldl (processCategory env bid ci maxGC suggestions deficits) st).gameChangerCount =
          st.gameChangerCount + (app.filter (fun e => isGameChanger env e.name bid)).length ∧
        (app.filter (fun e => isGameChanger env e.name bid)).length ≤
          (maxGC - st.gameChangerCount).toNat := by
  intro cats
  induction cats with
  | nil =>
    intro st hseen
    exact ⟨[], by simp, by simpa using hseen, by simp, by simp, by simp, by simp, by simp⟩
  | cons cn rest ih =>
    intro st hseen
    obtain ⟨app1, hb1, hs1, hg1, hf1, hnd1, hgc1, hbud1⟩ :=
      processCategory_spec env bid ci maxGC suggestions deficits hcons st cn hseen
    set st1 := processCategory env bid ci maxGC suggestions deficits st cn with hst1
    have hseen1 : st1.cardsInDeck = st1.builtCards.map (fun e => lowerStr e.name) := by
      rw [hs1, hb1]
    obtain ⟨app2, hb2, hs2, hg2, hf2, hnd2, hgc2, hbud2⟩ := ih st1 hseen1
    refine ⟨app1 ++ app2, ?_, ?_, ?_, ?_, ?_, ?_, ?_⟩
    · rw [List.foldl_cons, hb2, hb1, List.append_assoc]
    · rw [List.foldl_cons, hs2, hb1, List.append_assoc]
    · intro e he
      rcases List.mem_append.mp he with h | h
      · exact ⟨cn, by simp, hg1 e h⟩
      · obtain ⟨cn2, hcn2, hgood⟩ := hg2 e h
        exact ⟨cn2, by simp [hcn2], hgood⟩
    · intro e he
      rcases List.mem_append.mp he with h | h
      · exact hf1 e h
      · intro hmem
        refine hf2 e h ?_
        rw [hb1, List.map_append]
        exact List.mem_append_left _ hmem
    · rw [List.map_append, List.nodup_append]
      refine ⟨hnd1, hnd2, ?_⟩
      intro x hx1 hx2
      rw [List.mem_map] at hx2
      obtain ⟨e2, he2, rfl⟩ := hx2
      refine hf2 e2 he2 ?_
      rw [hb1, List.map_append]
      exact List.mem_append_right _ hx1
    · rw [List.foldl_cons, hgc2, hgc1, List.filter_append, List.length_append]
      push_cast
      ring
    · rw [List.filter_append, List.length_append]
      rw [hgc1] at hbud2
      omega

/-- Environment whose card database holds exactly one mana rock. -/
def envAutofill : Env :=
  { getCardByName := fun n => if n = "Sol Ring" then some solRingCard else none
    templateData := fun _ => none
    bracketRulesData := none
    bracketLists := fun _ => none
    edhrecFetch := fun _ => Except.error "EDHREC unavailable" }

/-- The one-card environment is name-consistent. -/
theorem envAutofill_consistent : NameConsistent envAutofill := by
  intro s c h
  simp only [envAutofill] at h
  split_ifs at h with hs
  injection h with h
  subst h
  subst hs
  exact ⟨rfl, rfl⟩

/-- C2: every card the autofill appends satisfies all of: its (case-folded)
name was not already in the deck nor appended twice, its color identity is a
subset of that of the commander, it is not a mass-land-denial or extra-turn card
for the bracket, its mapped category list contains the category being filled
(one of the four priority categories), it is added at quantity exactly 1, and
Game Changers are only appended while the running count is below the
effective maximum, so at most `max 0 (maxGameChangers - initial count)` of
them are appended. Stated for a name-consistent card lookup. -/
theorem runAutofill_invariants (env : Env) (bracketId : String) (colorIdentity : List String)
    (maxGameChangers : Int) (suggestions : List EdhrecCardSuggestion)
    (deficits : List CategoryDeficit) (builtCards : List BuiltCardEntry)
    (gameChangerCount : Int) (hcons : NameConsistent env) :
    ∃ app : List BuiltCardEntry,
      (runAutofill env bracketId colorIdentity maxGameChangers suggestions deficits builtCards
          (builtCards.map (fun e => lowerStr e.name)) gameChangerCount).builtCards =
        builtCards ++ app ∧
      (∀ e ∈ app, ∃ cn ∈ priorityOrder, autofillGoodEntry env bracketId colorIdentity cn e) ∧
      (∀ e ∈ app, lowerStr e.name ∉ builtCards.map (fun x => lowerStr x.name)) ∧
      (app.map (fun e => lowerStr e.name)).Nodup ∧
      (app.filter (fun e => isGameChanger env e.name bracketId)).length ≤
        (maxGameChangers - gameChangerCount).toNat := by
  obtain ⟨app, hb, hs, hg, hf, hnd, hgc, hbud⟩ :=
    autofill_foldl_spec env bracketId colorIdentity maxGameChangers suggestions deficits hcons
      priorityOrder
      { builtCards := builtCards
        cardsInDeck := builtCards.map (fun e => lowerStr e.name)
        gameChangerCount := gameChangerCount, afNotes := [], afCounts := [] } rfl
  exact ⟨app, hb, hg, hf, hnd, hbud⟩

/-- Witness for C2 at a concrete one-suggestion environment. -/
theorem runAutofill_invariants_witness :
    ∃ app : List BuiltCardEntry,
      (runAutofill envAutofill "bracket3" [] 3 [{ name := "Sol Ring" }]
          [{ name := "ramp", current := 0, min := some 1, max := none, deficit := 1 }]
          [] (([] : List BuiltCardEntry).map (fun e => lowerStr e.name)) 0).builtCards =
        [] ++ app ∧
      (∀ e ∈ app, ∃ cn ∈ priorityOrder, autofillGoodEntry envAutofill "bracket3" [] cn e) ∧
      (∀ e ∈ app, lowerStr e.name ∉ ([] : List BuiltCardEntry).map (fun x => lowerStr x.name)) ∧
      (app.map (fun e => lowerStr e.name)).Nodup ∧
      (app.filter (fun e => isGameChanger envAutofill e.name "bracket3")).length ≤
        ((3 : Int) - 0).toNat :=
  runAutofill_invariants envAutofill "bracket3" [] 3 [{ name := "Sol Ring" }]
    [{ name := "ramp", current := 0, min := some 1, max := none, deficit := 1 }]
    [] 0 envAutofill_consistent
